import Mathlib

/-!
Verification development for the qt-node-editor graph toolkit.

The definitions below are a shallow embedding of the core data model of the
repository: Socket, Edge, Node, Scene (node_socket.py, node_edge.py,
node_node.py, node_scene.py), the serialization layer, the evaluation
protocol of the calculator example (calc_node_base.py) and the undo/redo
history manager (node_scene_history.py).  Graphics objects (gr_socket,
gr_node, gr_edge, gr_scene) are pure rendering state and are not modelled,
except for the node position (gr_node.scenePos, modelled as the pos_x/pos_y
fields) and the tooltip text set by CalcNode.eval.  Python machine floats
used for node positions are modelled as integers: the round-trip code never
computes with them, it only stores and reloads them.  Python object identity
(id(obj)) is modelled by explicitly supplied fresh numeric ids.
-/

set_option linter.unusedVariables false

namespace NodeEditor

/-! ## Serialization records (the TypedDict shapes)

SocketSerialize, NodeSerialize, EdgeSerialize, SceneSerialize from the
source.  The multi_edges key is NotRequired, hence an Option.
ContentSerialize of the base QDMContentWidget is the empty record, hence
Unit.  The Pos enum (node_socket.py) is an int enum with values
LEFT_TOP = 1 .. RIGHT_BOTTOM = 6; EdgeType has DIRECT = 1, BEZIER = 2. -/

structure SocketSer where
  id : Nat
  index : Nat
  multi_edges : Option Bool
  position : Nat
  socket_type : Nat
deriving DecidableEq, Repr

structure NodeSer where
  id : Nat
  title : String
  pos_x : Int
  pos_y : Int
  inputs : List SocketSer
  outputs : List SocketSer
  content : Unit
deriving DecidableEq, Repr

structure EdgeSer where
  id : Nat
  edge_type : Nat
  start : Option Nat
  stop : Option Nat
deriving DecidableEq, Repr

structure SceneSer where
  id : Nat
  width : Nat
  height : Nat
  nodes : List NodeSer
  edges : List EdgeSer
deriving DecidableEq, Repr

/-! ## Live object state

A Socket keeps the list of ids of the Edges attached to it (Socket.edges).
An Edge keeps the ids of its start and end sockets (object references in
Python; ids are unique so an id is a faithful reference).  EdgeSer.stop and
Edge.end_socket correspond to the source "end"/"end_socket" (end is a Lean
keyword). -/

structure Socket where
  id : Nat
  index : Nat
  position : Nat
  socket_type : Nat
  is_multi_edges : Bool
  is_input : Bool
  edges : List Nat
deriving DecidableEq, Repr

structure Node where
  id : Nat
  title : String
  pos_x : Int
  pos_y : Int
  inputs : List Socket
  outputs : List Socket
deriving DecidableEq, Repr

structure Edge where
  id : Nat
  edge_type : Nat
  start_socket : Option Nat
  end_socket : Option Nat
deriving DecidableEq, Repr

structure Scene where
  id : Nat
  scene_width : Nat
  scene_height : Nat
  nodes : List Node
  edges : List Edge
deriving DecidableEq, Repr

/-- Scene constructor defaults: empty collections, 64000 x 64000. -/
def Scene.new (freshId : Nat) : Scene :=
  { id := freshId, scene_width := 64000, scene_height := 64000,
    nodes := [], edges := [] }

/-- Node constructor defaults when called as node_type(self) during scene
deserialization: title "Undefined Node", no sockets, position (0, 0). -/
def Node.new (freshId : Nat) : Node :=
  { id := freshId, title := "Undefined Node", pos_x := 0, pos_y := 0,
    inputs := [], outputs := [] }

/-- Socket constructor as invoked by Node.deserialize: multi_edges defaults
to True (not passed at that call site), no edges attached yet. -/
def Socket.new (freshId : Nat) (index : Nat) (position : Nat)
    (socket_type : Nat) (is_input : Bool) : Socket :=
  { id := freshId, index := index, position := position,
    socket_type := socket_type, is_multi_edges := true,
    is_input := is_input, edges := [] }

/-- Edge constructor as invoked by Scene.deserialize: Edge(self) with both
sockets None and the default DIRECT (= 1) shape. -/
def Edge.new (freshId : Nat) : Edge :=
  { id := freshId, edge_type := 1, start_socket := none, end_socket := none }

/-! ## serialize -/

/-- Socket.serialize. -/
def Socket.serialize (s : Socket) : SocketSer :=
  { id := s.id, index := s.index, multi_edges := some s.is_multi_edges,
    position := s.position, socket_type := s.socket_type }

/-- Node.serialize (content of the base QDMContentWidget serializes to the
empty record). -/
def Node.serialize (n : Node) : NodeSer :=
  { id := n.id, title := n.title, pos_x := n.pos_x, pos_y := n.pos_y,
    inputs := n.inputs.map Socket.serialize,
    outputs := n.outputs.map Socket.serialize, content := () }

/-- Edge.serialize: endpoint socket ids, or null for an absent socket. -/
def Edge.serialize (e : Edge) : EdgeSer :=
  { id := e.id, edge_type := e.edge_type, start := e.start_socket,
    stop := e.end_socket }

/-- Scene.serialize: nodes in order, and only edges with a non-null
end_socket (the "WA: not dragging" filter). -/
def Scene.serialize (s : Scene) : SceneSer :=
  { id := s.id, width := s.scene_width, height := s.scene_height,
    nodes := s.nodes.map Node.serialize,
    edges := (s.edges.filter (fun e => e.end_socket.isSome)).map
      Edge.serialize }

/-! ## The shared id-to-entity lookup table (the hashmap argument)

Python uses a dict mapping serialized ids to live objects.  An entry
references either a Node or a Socket by its current (possibly fresh) id.
Insertion overwrites an existing key; modelling the dict as a cons list
with first-match lookup gives exactly that last-write-wins behaviour. -/

inductive ERef where
  | nodeRef (id : Nat)
  | socketRef (id : Nat)
deriving DecidableEq, Repr

abbrev HMap := List (Nat × ERef)

def hmInsert (k : Nat) (v : ERef) (m : HMap) : HMap := (k, v) :: m

def hmGet (m : HMap) (k : Nat) : Option ERef :=
  (m.find? (fun p => p.1 = k)).map (fun p => p.2)

/-! ## deserialize -/

/-- Socket._determine_multi_edges: take the multi_edges value from the
record when present, default True exactly for the right-hand positions
(RIGHT_TOP = 4, RIGHT_CENTER = 5, RIGHT_BOTTOM = 6). -/
def determineMultiEdges (data : SocketSer) : Bool :=
  data.multi_edges.getD (decide (data.position = 4 ∨ data.position = 5 ∨
    data.position = 6))

/-- Socket.deserialize.  The socket id is overwritten from the record only
when restore_id is true, but the hashmap entry is always keyed by the
serialized id (data["id"]), referencing the socket under its current id. -/
def Socket.deserialize (sock : Socket) (data : SocketSer) (hm : HMap)
    (restore_id : Bool) : Socket × HMap :=
  let sock := if restore_id then { sock with id := data.id } else sock
  let sock := { sock with is_multi_edges := determineMultiEdges data }
  (sock, hmInsert data.id (ERef.socketRef sock.id) hm)

/-- The sort key index + position * 10000 used by Node.deserialize. -/
def socketSortKey (s : SocketSer) : Nat := s.index + s.position * 10000

/-- Stable insertion used to model the stable Python list.sort with the
socketSortKey key function. -/
def sortedInsertSocket (a : SocketSer) : List SocketSer → List SocketSer
  | [] => [a]
  | b :: l =>
    if socketSortKey a ≤ socketSortKey b then a :: b :: l
    else b :: sortedInsertSocket a l

/-- Stable sort of socket records by socketSortKey (Python list.sort). -/
def sortSocketData : List SocketSer → List SocketSer
  | [] => []
  | a :: l => sortedInsertSocket a (sortSocketData l)

/-- The per-side loop of Node.deserialize: for each (sorted) socket record,
construct a fresh Socket and deserialize it into the record, threading the
hashmap and the fresh-id counter. -/
def socketsLoop (is_input : Bool) (restore_id : Bool) :
    List SocketSer → HMap → Nat → List Socket × HMap × Nat
  | [], hm, fresh => ([], hm, fresh)
  | d :: rest, hm, fresh =>
    let s0 := Socket.new fresh d.index d.position d.socket_type is_input
    let (s1, hm1) := Socket.deserialize s0 d hm restore_id
    let (ss, hm2, fresh2) := socketsLoop is_input restore_id rest hm1 (fresh + 1)
    (s1 :: ss, hm2, fresh2)

/-- Node.deserialize: restore the id when asked, register the node in the
hashmap under its current id, restore position and title, sort the socket
records by index + position * 10000, then rebuild both socket lists.  The
content of the base widget deserializes trivially. -/
def Node.deserialize (node : Node) (data : NodeSer) (hm : HMap)
    (restore_id : Bool) (fresh : Nat) : Node × HMap × Nat :=
  let node := if restore_id then { node with id := data.id } else node
  let hm := hmInsert node.id (ERef.nodeRef node.id) hm
  let node := { node with
    pos_x := data.pos_x, pos_y := data.pos_y, title := data.title }
  let ins := sortSocketData data.inputs
  let outs := sortSocketData data.outputs
  let (inSocks, hm1, fresh1) := socketsLoop true restore_id ins hm fresh
  let (outSocks, hm2, fresh2) := socketsLoop false restore_id outs hm1 fresh1
  ({ node with inputs := inSocks, outputs := outSocks }, hm2, fresh2)

/-- Append an edge id to the edge list of the socket with the given id,
wherever it lives in the scene (Socket.add_edge reached through an object
reference in Python). -/
def Scene.addEdgeToSocket (s : Scene) (sockId : Nat) (eid : Nat) : Scene :=
  { s with nodes := s.nodes.map (fun nd =>
      { nd with
        inputs := nd.inputs.map (fun so =>
          if so.id = sockId then { so with edges := so.edges ++ [eid] } else so),
        outputs := nd.outputs.map (fun so =>
          if so.id = sockId then { so with edges := so.edges ++ [eid] } else so) }) }

/-- One Edge(self).deserialize(edge_data, ...) step of Scene.deserialize.
The constructor appends a fresh edge to scene.edges and deserialize then
mutates that same object, so the two are collapsed into appending the final
record.  Deserialization asserts that both endpoint ids are present and
resolves them through the hashmap; a missing key or a non-socket entry is a
crash (assertion/KeyError/AttributeError), modelled as none. -/
def sceneEdgeStep (s : Scene) (data : EdgeSer) (hm : HMap)
    (restore_id : Bool) (fresh : Nat) : Option Scene :=
  let eid := if restore_id then data.id else fresh
  match data.start with
  | none => none
  | some sidStart =>
    match hmGet hm sidStart with
    | some (ERef.socketRef realStart) =>
      let s := s.addEdgeToSocket realStart eid
      match data.stop with
      | none => none
      | some sidStop =>
        match hmGet hm sidStop with
        | some (ERef.socketRef realStop) =>
          let s := s.addEdgeToSocket realStop eid
          some { s with edges := s.edges ++
            [{ id := eid, edge_type := data.edge_type,
               start_socket := some realStart,
               end_socket := some realStop }] }
        | _ => none
    | _ => none

/-- The node reconstruction loop of Scene.deserialize as intended, i.e.
with restore_id passed by keyword (the source passes it positionally at
node_scene.py:308, which is a TypeError against the keyword-only
signature of Node.deserialize at node_node.py:346; the actual crash is
modelled in Scene.deserialize below).  Per iteration: node_type(self)
appends a fresh Node to the scene and Node.deserialize fills it in. -/
def nodesLoop (restore_id : Bool) :
    List NodeSer → Scene → HMap → Nat → Scene × HMap × Nat
  | [], s, hm, fresh => (s, hm, fresh)
  | d :: rest, s, hm, fresh =>
    let n0 := Node.new fresh
    let (n1, hm1, fresh1) := Node.deserialize n0 d hm restore_id (fresh + 1)
    nodesLoop restore_id rest { s with nodes := s.nodes ++ [n1] } hm1 fresh1

/-- The edge reconstruction loop of Scene.deserialize as intended, i.e.
with restore_id passed by keyword (the source passes it positionally at
node_scene.py:311, a TypeError against the keyword-only signature of
Edge.deserialize at node_edge.py:221). -/
def edgesLoop (restore_id : Bool) :
    List EdgeSer → Scene → HMap → Nat → Option Scene
  | [], s, _, _ => some s
  | d :: rest, s, hm, fresh =>
    match sceneEdgeStep s d hm restore_id fresh with
    | none => none
    | some s1 => edgesLoop restore_id rest s1 hm (fresh + 1)

/-- Scene.deserialize run on a freshly constructed Scene: clear() is a
no-op there and the scene id is adopted when restore_id is true.  The
reconstruction loops, however, pass restore_id POSITIONALLY — at
node_scene.py:308 to Node.deserialize and at node_scene.py:311 to
Edge.deserialize — while restore_id is keyword-only in both callees
(node_node.py:346, node_edge.py:221).  Python therefore raises
TypeError (deserialize takes 3 positional arguments but 4 were given)
on the very first node record (or, when there is no node, on the first
edge record), and the exception escapes Scene.deserialize; none models
that crash (the fresh Node/Edge constructed by node_type(self) or
Edge(self) before the failing call is unobservable, as no caller
catches the exception).  Only a record with no nodes and no edges
deserializes. -/
def Scene.deserialize (freshSceneId : Nat) (data : SceneSer)
    (restore_id : Bool) : Option Scene :=
  let s := Scene.new freshSceneId
  let s := if restore_id then { s with id := data.id } else s
  match data.nodes with
  | _ :: _ => none
  | [] =>
    match data.edges with
    | _ :: _ => none
    | [] => some s

/-- Scene.deserialize under the one-token fix for the TypeError above:
identical to the source except that restore_id is passed by keyword at
node_scene.py:308 and :311 (exactly the convention the clipboard path
node_scene_clipboard.py:109/117 already follows).  All nodes are rebuilt
through the registry-selected type, filling the shared hashmap, then all
edges. -/
def Scene.deserializeFixed (freshSceneId : Nat) (data : SceneSer)
    (restore_id : Bool) : Option Scene :=
  let s := Scene.new freshSceneId
  let s := if restore_id then { s with id := data.id } else s
  let (s1, hm, fresh) := nodesLoop restore_id data.nodes s [] (freshSceneId + 1)
  edgesLoop restore_id data.edges s1 hm fresh

/-! ## Programmatic well-formedness

The facts guaranteed for every Scene built through the constructors:
ids are process-unique (Python id()), the sockets of each side were
created with increasing indices in a single position (so their serialized
records are already sorted by the index + position * 10000 key), every
fully connected edge references sockets existing in the scene, and the
scene dimensions are the constructor constants.  These are the
preconditions of the serialization round trip. -/

/-- The serialized socket records are sorted by the Node.deserialize sort
key (true for sockets created by _init_sockets). -/
def isKeySorted : List SocketSer → Bool
  | [] => true
  | [_] => true
  | a :: b :: t =>
    decide (socketSortKey a ≤ socketSortKey b) && isKeySorted (b :: t)

/-- All socket ids of a node, inputs first. -/
def Node.socketIds (n : Node) : List Nat := (n.inputs ++ n.outputs).map Socket.id

/-- All socket ids of a scene. -/
def Scene.socketIds (s : Scene) : List Nat :=
  (s.nodes.map Node.socketIds).flatten

/-- An optional endpoint resolves to a socket existing in the scene. -/
def optSocketInScene (o : Option Nat) (s : Scene) : Bool :=
  match o with
  | some sid => decide (sid ∈ s.socketIds)
  | none => false

/-- A Scene built programmatically through the constructors. -/
def sceneWF (s : Scene) : Bool :=
  decide (s.scene_width = 64000) && decide (s.scene_height = 64000) &&
  decide ((s.nodes.map Node.id ++ s.socketIds).Nodup) &&
  s.nodes.all (fun n => isKeySorted (n.inputs.map Socket.serialize) &&
    isKeySorted (n.outputs.map Socket.serialize)) &&
  s.edges.all (fun e => !e.end_socket.isSome ||
    (optSocketInScene e.start_socket s && optSocketInScene e.end_socket s))

/-- The hashmap entry Socket.deserialize records for a socket when
restore_id is true: the socket id maps to the socket itself. -/
def socketEntry (so : Socket) : Nat × ERef := (so.id, ERef.socketRef so.id)

/-- The hashmap entries contributed by one Node.deserialize call with
restore_id true, newest first. -/
def nodeEntries (n : Node) : HMap :=
  (n.outputs.map socketEntry).reverse ++ (n.inputs.map socketEntry).reverse ++
    [(n.id, ERef.nodeRef n.id)]

/-- The hashmap contents after the node phase of Scene.deserialize with
restore_id true, newest first. -/
def sceneEntries : List Node → HMap
  | [] => []
  | n :: rest => sceneEntries rest ++ nodeEntries n

/-- The keys of a hashmap. -/
def hmKeys (m : HMap) : List Nat := m.map Prod.fst

/-! ## Lookup helpers -/

/-- Find an edge in the scene by id (object identity; ids are unique). -/
def Scene.findEdge (s : Scene) (eid : Nat) : Option Edge :=
  s.edges.find? (fun e => e.id = eid)

/-- Find a node in the scene by id. -/
def Scene.findNode (s : Scene) (nid : Nat) : Option Node :=
  s.nodes.find? (fun n => n.id = nid)

/-- Find a socket by id anywhere in the scene, returning the owning node id
together with the socket (socket.node back-reference and the socket). -/
def Scene.findSocket (s : Scene) (sid : Nat) : Option (Nat × Socket) :=
  match s.nodes.find? (fun n =>
    (n.inputs ++ n.outputs).any (fun so => so.id = sid)) with
  | none => none
  | some nd =>
    match (nd.inputs ++ nd.outputs).find? (fun so => so.id = sid) with
    | none => none
    | some so => some (nd.id, so)

/-! ## Edge.remove and Node.remove -/

/-- Notifications fired on the former endpoint nodes by Edge.remove:
on_edge_connection_changed on both nodes, and additionally
on_input_data_changed on a node whose socket is an input. -/
inductive NEvent where
  | connectionChanged (nodeId : Nat) (edgeId : Nat)
  | inputDataChanged (nodeId : Nat) (edgeId : Nat)
deriving DecidableEq, Repr

/-- Socket.remove_edge on one socket value: drop the first occurrence of
the edge id from the edge list of the socket when this is the referenced
socket; an absent edge is only a logged warning (no state change, no
exception). -/
def condErase (sockId eid : Nat) (so : Socket) : Socket :=
  if so.id = sockId then
    { so with edges := so.edges.eraseP (fun x => x = eid) }
  else so

/-- Socket.remove_edge reached through the socket reference held by the edge,
applied inside the scene. -/
def Scene.removeEdgeFromSocket (s : Scene) (sockId : Nat) (eid : Nat) : Scene :=
  { s with nodes := s.nodes.map (fun nd =>
      { nd with
        inputs := nd.inputs.map (condErase sockId eid),
        outputs := nd.outputs.map (condErase sockId eid) }) }

/-- One endpoint assignment of disconnect_from_sockets: setting an
endpoint to None detaches the edge from the old socket when there was
one. -/
def optRemove (s : Scene) (o : Option Nat) (eid : Nat) : Scene :=
  match o with
  | some sid => s.removeEdgeFromSocket sid eid
  | none => s

/-- The effect of one optRemove on one socket value. -/
def condEraseOpt (o : Option Nat) (eid : Nat) (so : Socket) : Socket :=
  match o with
  | some sid => condErase sid eid so
  | none => so

/-- The notifications Edge.remove issues for one former endpoint socket:
socket.node.on_edge_connection_changed(self), and if socket.is_input also
socket.node.on_input_data_changed(self). -/
def socketNotifications (s : Scene) (sid : Option Nat) (eid : Nat) : List NEvent :=
  match sid with
  | none => []
  | some sid =>
    match s.findSocket sid with
    | none => []
    | some (ownerId, sock) =>
      NEvent.connectionChanged ownerId eid ::
        (if sock.is_input then [NEvent.inputDataChanged ownerId eid] else [])

/-- Edge.remove: remember the old endpoints, disconnect_from_sockets (end
socket first, then start socket, each detaching the edge from the old
list of the old socket), remove the edge from scene.edges (absence is tolerated),
and only if both old endpoints were non-null notify both endpoint nodes,
start side first.  The emitted events record which hooks were invoked. -/
def Edge.removeFromScene (s : Scene) (eid : Nat) : Scene × List NEvent :=
  match s.findEdge eid with
  | none => (s, [])
  | some e =>
    let s1 := optRemove s e.end_socket eid
    let s2 := optRemove s1 e.start_socket eid
    let s3 := { s2 with edges := s2.edges.eraseP (fun e2 => e2.id = eid) }
    let ev := if e.start_socket.isSome && e.end_socket.isSome then
        socketNotifications s e.start_socket e.id ++
          socketNotifications s e.end_socket e.id
      else []
    (s3, ev)

/-- The inner loop "for edge in socket.edges: edge.remove()" of
Node.remove.  Python iterates the live list by index while Edge.remove
mutates that very list, so the loop re-reads socket.edges from the current
state at every step and advances the index unconditionally. -/
def nodeRemoveEdgesLoop (fuel : Nat) (s : Scene) (sockId : Nat) (i : Nat)
    (ev : List NEvent) : Option (Scene × List NEvent) :=
  match fuel with
  | 0 => none
  | fuel + 1 =>
    match s.findSocket sockId with
    | none => some (s, ev)
    | some (_, sock) =>
      if h : i < sock.edges.length then
        let eid := sock.edges.get ⟨i, h⟩
        let (s1, ev1) := Edge.removeFromScene s eid
        nodeRemoveEdgesLoop fuel s1 sockId (i + 1) (ev ++ ev1)
      else some (s, ev)

/-- The outer loop "for socket in (self.inputs + self.outputs)" of
Node.remove; the socket list is captured once at entry. -/
def nodeRemoveSocketsLoop (fuel : Nat) :
    List Nat → Scene → List NEvent → Option (Scene × List NEvent)
  | [], s, ev => some (s, ev)
  | sid :: rest, s, ev =>
    match nodeRemoveEdgesLoop fuel s sid 0 ev with
    | none => none
    | some (s1, ev1) => nodeRemoveSocketsLoop fuel rest s1 ev1

/-- Node.remove: iterate over all sockets removing the edges found there,
then remove the node itself from the scene node list
(scene.remove_node tolerates absence).  The fuel only bounds the
index-based inner loops and is irrelevant once large enough. -/
def Node.removeFromScene (fuel : Nat) (s : Scene) (nid : Nat) :
    Option (Scene × List NEvent) :=
  match s.findNode nid with
  | none => some (s, [])
  | some nd =>
    let sockIds := (nd.inputs ++ nd.outputs).map Socket.id
    match nodeRemoveSocketsLoop fuel sockIds s [] with
    | none => none
    | some (s1, ev) =>
      some ({ s1 with nodes := s1.nodes.eraseP (fun n => n.id = nid) }, ev)

/-! ## get_children_nodes and mark_descendants_dirty -/

/-- Edge.get_connected_node: the node owning the socket on the other end,
or none while the other end is null (dragging). -/
def Edge.getConnectedNode (s : Scene) (e : Edge) (sockId : Nat) : Option Nat :=
  let other := if e.end_socket = some sockId then e.start_socket
               else e.end_socket
  match other with
  | none => none
  | some oid => (s.findSocket oid).map (fun p => p.1)

/-- Node.get_children_nodes: nodes connected to the node outputs, walking
every output socket in order and every attached edge in order, dropping
null results. -/
def Node.getChildrenIds (s : Scene) (nid : Nat) : List Nat :=
  match s.findNode nid with
  | none => []
  | some nd =>
    (nd.outputs.map (fun sock =>
      sock.edges.map (fun eid =>
        match s.findEdge eid with
        | none => none
        | some e => Edge.getConnectedNode s e sock.id))).flatten.filterMap
      (fun x => x)

/-- Node.mark_dirty on the dirty-flag assignment: set the flag of one node
to (not unset); the on_marked_dirty hook is a no-op in the base class. -/
def markDirtyFlag (unset : Bool) (nid : Nat) (d : Nat → Bool) : Nat → Bool :=
  fun x => if x = nid then !unset else d x

/-- The loop body of Node.mark_descendants_dirty: for each child in order,
mark it and recurse into its own descendants. -/
def markDescendantsGo (rec : (Nat → Bool) → Nat → Option (Nat → Bool))
    (unset : Bool) : List Nat → (Nat → Bool) → Option (Nat → Bool)
  | [], d => some d
  | c :: cs, d =>
    match rec (markDirtyFlag unset c d) c with
    | none => none
    | some d1 => markDescendantsGo rec unset cs d1

/-- Node.mark_descendants_dirty: depth-first recursion over
get_children_nodes with no cycle guard.  The dirty flags of the nodes are
the map d; the topology of the scene is never modified by the recursion.
The fuel bounds the recursion depth; none models non-termination (the
Python recursion at that depth is still running). -/
def Node.markDescendantsDirty (s : Scene) (unset : Bool) :
    Nat → (Nat → Bool) → Nat → Option (Nat → Bool)
  | 0, _, _ => none
  | fuel + 1, d, nid =>
    markDescendantsGo
      (fun d2 n => Node.markDescendantsDirty s unset fuel d2 n) unset
      (Node.getChildrenIds s nid) d

/-! ## The calculator evaluation protocol (calc_node_base.py)

CalcNode has two non-multi input sockets and one multi output socket.  The
evaluation-relevant state of a node is: the upstream node feeding each of
the two inputs (get_input resolves the first edge of the socket), the
downstream children reachable through the edges of the output socket in order
(get_children_nodes), the dirty/invalid flags, the cached value, the
tooltip text set by eval, and a ghost counter of eval_impl invocations
(the "call counter in tests" of the specification).  Python float
arithmetic is modelled on integers; the scenarios use exact values. -/

inductive COp where
  | add
  | subtract
  | multiply
  | divide
deriving DecidableEq, Repr

structure CalcNode where
  id : Nat
  op : COp
  input1 : Option Nat
  input2 : Option Nat
  outs : List Nat
  is_dirty : Bool
  is_invalid : Bool
  value : Option Int
  tooltip : Option String
  evalImplCount : Nat
deriving DecidableEq, Repr

structure CalcState where
  nodes : List CalcNode
deriving DecidableEq, Repr

/-- A recoverable domain error (Python ValueError: the except-branch that
also dirties the descendants) versus any other exception (the generic
except-branch that only logs). -/
inductive CErr where
  | valueError (msg : String)
  | otherError (msg : String)
deriving DecidableEq, Repr

def CalcState.find (s : CalcState) (nid : Nat) : Option CalcNode :=
  s.nodes.find? (fun n => n.id = nid)

def CalcState.update (s : CalcState) (nid : Nat) (f : CalcNode → CalcNode) :
    CalcState :=
  { s with nodes := s.nodes.map (fun n => if n.id = nid then f n else n) }

/-- Node.mark_dirty: the flag becomes (not unset). -/
def CalcState.markDirty (s : CalcState) (unset : Bool) (nid : Nat) : CalcState :=
  s.update nid (fun n => { n with is_dirty := !unset })

/-- Node.mark_invalid: the flag becomes (not unset). -/
def CalcState.markInvalid (s : CalcState) (unset : Bool) (nid : Nat) : CalcState :=
  s.update nid (fun n => { n with is_invalid := !unset })

def CalcState.setTooltip (s : CalcState) (nid : Nat) (t : Option String) :
    CalcState :=
  s.update nid (fun n => { n with tooltip := t })

def CalcState.setValue (s : CalcState) (nid : Nat) (v : Int) : CalcState :=
  s.update nid (fun n => { n with value := some v })

def CalcState.bumpCount (s : CalcState) (nid : Nat) : CalcState :=
  s.update nid (fun n => { n with evalImplCount := n.evalImplCount + 1 })

/-- get_children_nodes of a calculator node: the downstream node ids in
output-socket edge order. -/
def CalcState.children (s : CalcState) (nid : Nat) : List Nat :=
  match s.find nid with
  | none => []
  | some nd => nd.outs

/-- eval_operation of the concrete CalcNode subtypes (operations.py);
division by zero raises ZeroDivisionError, which is not a ValueError. -/
def evalOperation : COp → Int → Int → Except CErr Int
  | .add, a, b => .ok (a + b)
  | .subtract, a, b => .ok (a - b)
  | .multiply, a, b => .ok (a * b)
  | .divide, a, b =>
    if b = 0 then .error (.otherError "division by zero") else .ok (a / b)

/-- Loop body of mark_descendants_dirty over the calculator state. -/
def markDescCGo (rec : CalcState → Nat → Option CalcState) (unset : Bool) :
    List Nat → CalcState → Option CalcState
  | [], s => some s
  | c :: cs, s =>
    match rec (s.markDirty unset c) c with
    | none => none
    | some s1 => markDescCGo rec unset cs s1

/-- Node.mark_descendants_dirty on the calculator state (fuel bounds the
depth of the unguarded recursion). -/
def CalcState.markDescendantsDirty (unset : Bool) :
    Nat → CalcState → Nat → Option CalcState
  | 0, _, _ => none
  | fuel + 1, s, nid =>
    markDescCGo (fun s2 n => CalcState.markDescendantsDirty unset fuel s2 n)
      unset (s.children nid) s

/-- Node.eval_children: evaluate every child node in order, discarding the
returned values. -/
def evalChildrenGo (recEval : CalcState → Nat → Option (CalcState × Option Int)) :
    List Nat → CalcState → Option CalcState
  | [], s => some s
  | c :: cs, s =>
    match recEval s c with
    | none => none
    | some (s1, _) => evalChildrenGo recEval cs s1

/-- CalcNode.eval_impl with the recursive eval and mark_descendants_dirty
calls supplied by the caller (they carry the fuel): resolve both inputs
(a missing one raises ValueError "Some inputs not connected"), evaluate
them, apply eval_operation (None operands raise a TypeError, a non-Value
error), store the value, clear both flags, dirty the descendants and
eagerly evaluate the children.  The ghost invocation counter is bumped on
entry. -/
def evalImplF (recEval : CalcState → Nat → Option (CalcState × Option Int))
    (mdesc : CalcState → Nat → Option CalcState)
    (s : CalcState) (nid : Nat) : Option (CalcState × Except CErr Int) :=
  let s := s.bumpCount nid
  match s.find nid with
  | none => some (s, .error (.otherError "missing node"))
  | some nd =>
    match nd.input1, nd.input2 with
    | some i1, some i2 =>
      match recEval s i1 with
      | none => none
      | some (s1, v1) =>
        match recEval s1 i2 with
        | none => none
        | some (s2, v2) =>
          match v1, v2 with
          | some a, some b =>
            match evalOperation nd.op a b with
            | .error err => some (s2, .error err)
            | .ok r =>
              let s3 := (((s2.setValue nid r).markDirty true nid).markInvalid
                true nid)
              match mdesc s3 nid with
              | none => none
              | some s4 =>
                match evalChildrenGo recEval (s4.children nid) s4 with
                | none => none
                | some s5 => some (s5, .ok r)
          | _, _ => some (s2, .error (.otherError
              "unsupported operand type for None"))
    | _, _ => some (s, .error (.valueError "Some inputs not connected"))

/-- CalcNode.eval: return the cached value untouched when neither dirty
nor invalid; otherwise clear the tooltip and run eval_impl, catching
ValueError (mark invalid, record the message, dirty the descendants) and
any other exception (mark invalid, record the message, log).  The result
value is None on both error paths; eval never propagates an exception. -/
def CalcNode.eval : Nat → CalcState → Nat → Option (CalcState × Option Int)
  | 0, _, _ => none
  | fuel + 1, s, nid =>
    match s.find nid with
    | none => some (s, none)
    | some nd =>
      if !nd.is_dirty && !nd.is_invalid then some (s, nd.value)
      else
        let s := s.setTooltip nid none
        match evalImplF (fun s2 n => CalcNode.eval fuel s2 n)
            (fun s2 n => CalcState.markDescendantsDirty false fuel s2 n)
            s nid with
        | none => none
        | some (s1, .ok v) => some (s1, some v)
        | some (s1, .error (.valueError msg)) =>
          let s2 := (s1.markInvalid false nid).setTooltip nid (some msg)
          match CalcState.markDescendantsDirty false fuel s2 nid with
          | none => none
          | some s3 => some (s3, none)
        | some (s1, .error (.otherError msg)) =>
          let s2 := (s1.markInvalid false nid).setTooltip nid (some msg)
          some (s2, none)

/-- Removing the edge feeding input socket 1 (the second input) of node
dst from node src: Edge.remove detaches the edge on both sides, then
(both endpoints were connected) notifies both nodes; the output side gets
only the no-op on_edge_connection_changed, the input side additionally
runs CalcNode.on_input_data_changed, which marks the node dirty and
re-evaluates it immediately. -/
def disconnectInput2 (fuel : Nat) (s : CalcState) (src dst : Nat) :
    Option CalcState :=
  let s := s.update src (fun nd =>
    { nd with outs := nd.outs.eraseP (fun x => x = dst) })
  let s := s.update dst (fun nd => { nd with input2 := none })
  let s := s.markDirty false dst
  match CalcNode.eval fuel s dst with
  | none => none
  | some (s1, _) => some s1

/-- Creating a fresh Edge between the output socket of src and the second
input socket of dst: the constructor registers the edge with both sockets
and the scene but fires no notification. -/
def connectInput2 (s : CalcState) (src dst : Nat) : CalcState :=
  let s := s.update src (fun nd => { nd with outs := nd.outs ++ [dst] })
  s.update dst (fun nd => { nd with input2 := some src })

/-! ## The undo/redo history manager (node_scene_history.py)

The history state bundles the live scene graph, the current selection
(gr_scene.selectedItems() split into node and edge ids the way
create_history_stamp does), the has_been_modified flag of the scene, and the
fields of SceneHistory.  history_current_step is an int that starts at -1;
Python list indexing and slicing semantics (negative indices count from
the end) are modelled explicitly. -/

structure HistorySel where
  nodes : List Nat
  edges : List Nat
deriving DecidableEq, Repr

structure HistoryStamp where
  desc : String
  snapshot : SceneSer
  selection : HistorySel
deriving DecidableEq, Repr

structure SceneHistory where
  scene : Scene
  selNodes : List Nat
  selEdges : List Nat
  has_been_modified : Bool
  history_stack : List HistoryStamp
  history_current_step : Int
  history_modified_step : Option Int
  history_limit : Nat
  inTransaction : Bool
deriving DecidableEq, Repr

/-- Python list indexing: a negative index counts from the end; an index
out of range raises IndexError (none). -/
def pyGet {α : Type} (l : List α) (i : Int) : Option α :=
  if 0 ≤ i then l[i.toNat]?
  else if -(l.length : Int) ≤ i then l[l.length - (-i).toNat]?
  else none

/-- Python slice l[:k]: a negative stop counts from the end, clamped. -/
def pySliceTo {α : Type} (l : List α) (k : Int) : List α :=
  if 0 ≤ k then l.take k.toNat
  else l.take (l.length - min l.length (-k).toNat)

/-- SceneHistory.create_history_stamp: the description, a full serialized
scene snapshot, and the ids of the selected nodes and edges. -/
def SceneHistory.createHistoryStamp (h : SceneHistory) (desc : String) :
    HistoryStamp :=
  { desc := desc, snapshot := h.scene.serialize,
    selection := { nodes := h.selNodes, edges := h.selEdges } }

/-- The or-assignment scene.has_been_modified |= modified performed at
the top of store_history (the setter only notifies listeners, which is no
state change here). -/
def SceneHistory.withModifiedFlag (modified : Bool) (h : SceneHistory) :
    SceneHistory :=
  { h with has_been_modified := h.has_been_modified || modified }

/-- When the cursor is not at the end of the stack, destroy the history
steps to its right, and drop the modified-step marker when it now points
past the shortened stack. -/
def SceneHistory.truncateRedo (h : SceneHistory) : SceneHistory :=
  if h.history_current_step + 1 < (h.history_stack.length : Int) then
    let stack2 := pySliceTo h.history_stack (h.history_current_step + 1)
    { h with
      history_stack := stack2,
      history_modified_step :=
        match h.history_modified_step with
        | some m => if m > (stack2.length : Int) - 1 then none else some m
        | none => none }
  else h

/-- When the history is full, remove the oldest item and shift the cursor
and the modified-step marker down by one. -/
def SceneHistory.evictOldest (h : SceneHistory) : SceneHistory :=
  if h.history_current_step + 1 ≥ (h.history_limit : Int) then
    { h with
      history_stack := h.history_stack.drop 1,
      history_current_step := h.history_current_step - 1,
      history_modified_step :=
        h.history_modified_step.map (fun m => max 0 (m - 1)) }
  else h

/-- Append the new stamp and advance the cursor onto it. -/
def SceneHistory.appendStamp (hs : HistoryStamp) (h : SceneHistory) :
    SceneHistory :=
  { h with
    history_stack := h.history_stack ++ [hs],
    history_current_step := h.history_current_step + 1 }

/-- Record the first modifying step. -/
def SceneHistory.markModifiedStep (modified : Bool) (h : SceneHistory) :
    SceneHistory :=
  if modified ∧ h.history_modified_step = none then
    { h with history_modified_step := some h.history_current_step }
  else h

/-- SceneHistory.store_history: a no-op inside a transaction; otherwise
first or-assign scene.has_been_modified, build the new stamp, and if the
stack is non-empty compare it against the stamp at the current cursor
(snapshot and selection only, not the description) and skip the push when
they are equal.  Otherwise: discard the steps right of the cursor, evict
the oldest stamp when the limit is reached, append the stamp, advance the
cursor, and record the modified step if this is the first modifying
stamp.  An out-of-range cursor read is an IndexError (none). -/
def SceneHistory.storeHistory (h : SceneHistory) (desc : String)
    (modified : Bool) : Option SceneHistory :=
  if h.inTransaction then some h
  else
    let h := h.withModifiedFlag modified
    let hs := h.createHistoryStamp desc
    if h.history_stack.isEmpty then
      some (h.truncateRedo.evictOldest.appendStamp hs
        |>.markModifiedStep modified)
    else
      match pyGet h.history_stack h.history_current_step with
      | none => none
      | some hcs =>
        if hcs.snapshot = hs.snapshot ∧ hcs.selection = hs.selection then
          some h
        else
          some (h.truncateRedo.evictOldest.appendStamp hs
            |>.markModifiedStep modified)

/-- The reachable-state invariant of the history stack maintained by
clear() and store_history: the cursor is -1 exactly on the empty stack and
otherwise points inside the stack. -/
def SceneHistory.Inv (h : SceneHistory) : Prop :=
  (h.history_stack = [] → h.history_current_step = -1) ∧
  (h.history_stack ≠ [] → 0 ≤ h.history_current_step ∧
    h.history_current_step < (h.history_stack.length : Int))

instance (h : SceneHistory) : Decidable h.Inv := by
  unfold SceneHistory.Inv; infer_instance

/-! ## Concrete fixtures

Small concrete scenes and calculator graphs used by witnesses,
counterexamples and code-bug demonstrations.  Numeric ids play the role of
Python object identities. -/

/-- Output socket (RIGHT_CENTER, type 3) of node 1 carrying edge 100. -/
def exOut1 : Socket :=
  { id := 10, index := 0, position := 5, socket_type := 3,
    is_multi_edges := true, is_input := false, edges := [100] }

/-- Input socket (LEFT_CENTER, type 3) of node 2 carrying edge 100. -/
def exIn2 : Socket :=
  { id := 20, index := 0, position := 2, socket_type := 3,
    is_multi_edges := false, is_input := true, edges := [100] }

def exNode1 : Node :=
  { id := 1, title := "A", pos_x := 0, pos_y := 0, inputs := [],
    outputs := [exOut1] }

def exNode2 : Node :=
  { id := 2, title := "B", pos_x := 10, pos_y := 20, inputs := [exIn2],
    outputs := [] }

def exEdge : Edge :=
  { id := 100, edge_type := 2, start_socket := some 10,
    end_socket := some 20 }

/-- A programmatically built two-node scene with one fully connected edge. -/
def exScene : Scene :=
  { id := 7, scene_width := 64000, scene_height := 64000,
    nodes := [exNode1, exNode2], edges := [exEdge] }

/-- Node 1 with a second edge 101 attached to the same (multi) output
socket, and a third node 3 receiving it: the input for the Node.remove
demonstration. -/
def exScene2 : Scene :=
  { id := 7, scene_width := 64000, scene_height := 64000,
    nodes :=
      [{ exNode1 with outputs := [{ exOut1 with edges := [100, 101] }] },
       exNode2,
       { id := 3, title := "C", pos_x := 5, pos_y := 5,
         inputs := [{ id := 30, index := 0, position := 2, socket_type := 3,
                      is_multi_edges := false, is_input := true,
                      edges := [101] }],
         outputs := [] }],
    edges := [exEdge,
      { id := 101, edge_type := 2, start_socket := some 10,
        end_socket := some 30 }] }

/-- A scene holding two half-connected edges: edge 100 has only an end
socket, edge 101 has only a start socket (a drag in progress). -/
def dragScene : Scene :=
  { id := 8, scene_width := 64000, scene_height := 64000,
    nodes := [{ exNode1 with outputs := [{ exOut1 with edges := [101] }] },
              { exNode2 with inputs := [{ exIn2 with edges := [100] }] }],
    edges :=
      [{ id := 100, edge_type := 1, start_socket := none,
         end_socket := some 20 },
       { id := 101, edge_type := 1, start_socket := some 10,
         end_socket := none }] }

/-- A two-node cyclic scene: node 1 feeds node 2 and node 2 feeds node 1. -/
def cycScene : Scene :=
  { id := 9, scene_width := 64000, scene_height := 64000,
    nodes :=
      [{ id := 1, title := "A", pos_x := 0, pos_y := 0,
         inputs := [{ id := 11, index := 0, position := 2, socket_type := 1,
                      is_multi_edges := false, is_input := true,
                      edges := [101] }],
         outputs := [{ id := 10, index := 0, position := 5, socket_type := 1,
                       is_multi_edges := true, is_input := false,
                       edges := [100] }] },
       { id := 2, title := "B", pos_x := 0, pos_y := 0,
         inputs := [{ id := 21, index := 0, position := 2, socket_type := 1,
                      is_multi_edges := false, is_input := true,
                      edges := [100] }],
         outputs := [{ id := 20, index := 0, position := 5, socket_type := 1,
                       is_multi_edges := true, is_input := false,
                       edges := [101] }] }],
    edges :=
      [{ id := 100, edge_type := 1, start_socket := some 10,
         end_socket := some 21 },
       { id := 101, edge_type := 1, start_socket := some 20,
         end_socket := some 11 }] }

/-- Clean upstream calculator node with cached value 6. -/
def calcA : CalcNode :=
  { id := 1, op := .add, input1 := none, input2 := none, outs := [3],
    is_dirty := false, is_invalid := false, value := some 6,
    tooltip := none, evalImplCount := 0 }

/-- Clean upstream calculator node with cached value 2. -/
def calcB : CalcNode :=
  { id := 2, op := .add, input1 := none, input2 := none, outs := [3],
    is_dirty := false, is_invalid := false, value := some 2,
    tooltip := none, evalImplCount := 0 }

/-- Freshly constructed Divide node fed by calcA and calcB (the CalcNode
constructor marks itself dirty). -/
def calcDiv : CalcNode :=
  { id := 3, op := .divide, input1 := some 1, input2 := some 2, outs := [],
    is_dirty := true, is_invalid := false, value := none, tooltip := none,
    evalImplCount := 0 }

/-- The Divide scenario graph: A -> Div.input1, B -> Div.input2. -/
def calcScene : CalcState := { nodes := [calcA, calcB, calcDiv] }

/-- The Divide node with its second input disconnected from the start. -/
def calcSceneBad : CalcState :=
  { nodes := [calcA, { calcDiv with input2 := none }] }

/-- An initial SceneHistory as set up by Scene.__init__ and
SceneHistory.clear: empty stack, cursor -1, limit 32. -/
def histInit : SceneHistory :=
  { scene := exScene, selNodes := [], selEdges := [],
    has_been_modified := false, history_stack := [],
    history_current_step := -1, history_modified_step := none,
    history_limit := 32, inTransaction := false }

/-- A freshly constructed socket whose Python identity yields id 7. -/
def sock7 : Socket := Socket.new 7 0 1 1 true

/-- A serialized edge record referencing sockets 42 and 43. -/
def edgeData500 : EdgeSer :=
  { id := 500, edge_type := 2, start := some 42, stop := some 43 }

/-- A lookup table resolving the serialized socket ids 42 and 43 to the
fresh socket ids 7 and 8 (the restore_id = False situation). -/
def hmC7 : HMap := [(42, ERef.socketRef 7), (43, ERef.socketRef 8)]

/-- A serialized socket record carrying id 42. -/
def sockData42 : SocketSer :=
  { id := 42, index := 0, multi_edges := some false, position := 1,
    socket_type := 1 }

/-- The Divide scenario after evaluating once and then disconnecting the
second input (which triggers on_input_data_changed and an immediate
re-evaluation that fails). -/
def calcAfterFail : Option CalcState :=
  (CalcNode.eval 9 calcScene 3).bind (fun p => disconnectInput2 9 p.1 2 3)

/-- The Divide scenario after reconnecting the second input and calling
eval() again. -/
def calcAfterReconnect : Option (CalcState × Option Int) :=
  (calcAfterFail.map (fun s => connectInput2 s 2 3)).bind
    (fun s => CalcNode.eval 9 s 3)

/-- Reachability through one or more outgoing edges: the nodes visited by
mark_descendants_dirty (the descendants of a node). -/
inductive Reaches (s : Scene) : Nat → Nat → Prop
  | head {a b : Nat} : b ∈ Node.getChildrenIds s a → Reaches s a b
  | cons {a b c : Nat} : b ∈ Node.getChildrenIds s a → Reaches s b c →
      Reaches s a c

end NodeEditor

namespace NodeEditor

/-! ## Claim theorems -/

/-- Claim C5 (code bug demonstration).  The claim states that Node.remove
removes every edge touching any socket of the node, including with more
than one edge on a single socket, so that afterwards no edge in
scene.edges references a socket of the removed node.  In exScene2, node 1
owns the multi output socket 10 carrying edges 100 and 101; removing
node 1 iterates socket.edges while Edge.remove mutates that list, so edge
101 is skipped: it stays in scene.edges and still references socket 10 of
the removed node. -/
theorem claim_C5_node_remove_leaves_dangling_edge :
    (Scene.findSocket exScene2 10).map Prod.fst = some 1
    ∧ (Node.removeFromScene 10 exScene2 1).map (fun p =>
        ((p.1.edges.filter (fun e => e.start_socket = some 10)).length,
         p.1.findNode 1, p.1.edges.length)) = some (1, none, 1) := by
  constructor
  · decide
  · decide

/-- Claim C6 counterexample.  The claim states that every edge record
emitted by Scene.serialize has both a non-null start and a non-null end
socket id; dragScene contains an edge with no start socket but a
connected end socket, and its serialized record is emitted with a null
start. -/
theorem claim_C6_counterexample :
    ∃ r ∈ (Scene.serialize dragScene).edges, r.start = none := by
  decide

/-- Claim C6 (amended): every edge record emitted by Scene.serialize has
a non-null end socket id, and exactly the edges lacking an end socket (an
in-progress drag) are excluded from the output; the start socket is not
checked by the filter. -/
theorem claim_C6_serializer_filters_on_end_only (s : Scene) :
    (∀ r ∈ (Scene.serialize s).edges, r.stop.isSome = true)
    ∧ (Scene.serialize s).edges.length
        + (s.edges.filter (fun e => e.end_socket = none)).length
      = s.edges.length := by
  constructor
  · intro r hr
    simp only [Scene.serialize, List.mem_map, List.mem_filter] at hr
    obtain ⟨e, ⟨_, he⟩, rfl⟩ := hr
    simpa [Edge.serialize] using he
  · simp only [Scene.serialize, List.length_map]
    induction s.edges with
    | nil => rfl
    | cons e l ih =>
      cases he : e.end_socket <;> simp [List.filter_cons, he] <;> omega

/-- Claim C6 witness: the amended statement evaluated on dragScene, which
holds one serializable and one excluded edge. -/
theorem claim_C6_witness :
    ((Scene.serialize dragScene).edges.length
        + (dragScene.edges.filter (fun e => e.end_socket = none)).length
      = dragScene.edges.length)
    ∧ (Scene.serialize dragScene).edges.length = 1 :=
  ⟨(claim_C6_serializer_filters_on_end_only dragScene).2, by decide⟩

/-- Claim C7 counterexample.  The claim states that a deserialized
id of the socket is taken from the serialized data even when restore_id is
False; deserializing record id 42 into the fresh socket with id 7 and
restore_id = False leaves the socket id at 7. -/
theorem claim_C7_counterexample :
    (Socket.deserialize sock7 sockData42 [] false).1.id = 7
    ∧ (7 : Nat) ≠ 42 := by
  decide

/-- Claim C7 (amended): with restore_id = False the socket keeps its
fresh id (like Node/Edge/Scene), but the serialized socket id is always
used as the key of the shared lookup table entry referencing the socket,
and Edge deserialization resolves its start and end through that table by
the serialized socket ids. -/
theorem claim_C7_socket_hashmap_keyed_by_serialized_id
    (sock : Socket) (data : SocketSer) (hm : HMap) :
    ((Socket.deserialize sock data hm false).1.id = sock.id
      ∧ hmGet (Socket.deserialize sock data hm false).2 data.id
          = some (ERef.socketRef sock.id))
    ∧ (∀ (s : Scene) (d : EdgeSer) (rid : Bool) (fresh sidS sidE a b : Nat),
        d.start = some sidS → d.stop = some sidE →
        hmGet hm sidS = some (ERef.socketRef a) →
        hmGet hm sidE = some (ERef.socketRef b) →
        ∃ s2, sceneEdgeStep s d hm rid fresh = some s2
          ∧ s2.edges.getLast? = some
              { id := if rid then d.id else fresh,
                edge_type := d.edge_type, start_socket := some a,
                end_socket := some b }) := by
  refine ⟨⟨rfl, ?_⟩, ?_⟩
  · simp [Socket.deserialize, hmInsert, hmGet]
  · intro s d rid fresh sidS sidE a b hds hde hga hgb
    simp only [sceneEdgeStep, hds, hde, hga, hgb]
    exact ⟨_, rfl, by simp [Scene.addEdgeToSocket, List.getLast?_concat]⟩

/-- Claim C7 witness: the amended statement applied to the concrete
fresh socket 7, record 42 and a concrete edge resolution. -/
theorem claim_C7_witness :
    ((Socket.deserialize sock7 sockData42 [] false).1.id = sock7.id)
    ∧ (∃ s2, sceneEdgeStep (Scene.new 900) edgeData500 hmC7 false 901
        = some s2
        ∧ s2.edges.getLast? = some
            { id := 901, edge_type := 2, start_socket := some 7,
              end_socket := some 8 }) := by
  refine ⟨(claim_C7_socket_hashmap_keyed_by_serialized_id sock7 sockData42
    []).1.1, ?_⟩
  have h := (claim_C7_socket_hashmap_keyed_by_serialized_id sock7 sockData42
    hmC7).2 (Scene.new 900) edgeData500 false 901 42 43 7 8 rfl rfl
    (by decide) (by decide)
  simpa [edgeData500] using h

/-- Claim C3 counterexample.  The claim states that after a failing
eval() (required input disconnected) the node has is_dirty() == False;
in the Divide scenario the failed evaluation leaves the dirty flag set
(eval_impl raises before mark_dirty(unset=True) is reached). -/
theorem claim_C3_counterexample :
    calcAfterFail.map (fun s => (s.find 3).map
        (fun nd => (nd.is_invalid, nd.is_dirty)))
      = some (some (true, true)) := by
  decide

/-- Claim C3 (amended): a failing eval() is handled locally (it returns,
with no value, instead of propagating the error), leaving the node
invalid with the human-readable reason recorded in the tooltip and the
dirty flag still set (not cleared); after reconnecting the input a
subsequent eval() clears the invalid flag and returns the correct
quotient. -/
theorem claim_C3_eval_error_recovery :
    (calcAfterFail.map (fun s => (s.find 3).map
        (fun nd => (nd.is_invalid, nd.is_dirty, nd.tooltip)))
      = some (some (true, true, some "Some inputs not connected")))
    ∧ ((CalcNode.eval 9 calcScene 3).bind
          (fun p => disconnectInput2 9 p.1 2 3)).isSome = true
    ∧ (calcAfterReconnect.map (fun p =>
          (p.2, (p.1.find 3).map (fun nd => (nd.is_invalid, nd.is_dirty))))
        = some (some 3, some (false, false))) := by
  refine ⟨by decide, by decide, by decide⟩

/-- Claim C2 counterexample.  The claim states that calling eval() twice
with no intervening state change invokes eval_impl() at most on the first
call; on the Divide node whose second input is disconnected the first
eval() fails and leaves the node invalid, so the second eval() invokes
eval_impl() again (the ghost invocation counter reaches 2). -/
theorem claim_C2_counterexample :
    ((CalcNode.eval 9 calcSceneBad 3).map (fun p =>
        (p.1.find 3).map (fun nd => nd.evalImplCount)) = some (some 1))
    ∧ (((CalcNode.eval 9 calcSceneBad 3).bind
          (fun p => CalcNode.eval 9 p.1 3)).map (fun p =>
        (p.1.find 3).map (fun nd => nd.evalImplCount)) = some (some 2)) := by
  refine ⟨by decide, by decide⟩

/-- Claim C2 (amended): a node with is_dirty() and is_invalid() both
false returns its cached value from eval() with the state unchanged and
eval_impl() not invoked; hence two consecutive eval() calls return the
identical value with eval_impl() invoked at most on the first call
provided the first call succeeds (a failed first call leaves the node
invalid and eval_impl() runs again, as the counterexample shows).  The
second and third conjuncts show the successful Divide scenario: the
second eval() is a no-op on the state and the invocation counter stays
at 1. -/
theorem claim_C2_eval_memoization :
    (∀ (fuel : Nat) (s : CalcState) (nid : Nat) (nd : CalcNode),
       s.find nid = some nd → nd.is_dirty = false → nd.is_invalid = false →
       CalcNode.eval (fuel + 1) s nid = some (s, nd.value))
    ∧ ((CalcNode.eval 9 calcScene 3).bind (fun p => CalcNode.eval 9 p.1 3)
        = CalcNode.eval 9 calcScene 3)
    ∧ ((CalcNode.eval 9 calcScene 3).map (fun p =>
          (p.2, (p.1.find 3).map (fun nd => nd.evalImplCount)))
        = some (some 3, some 1)) := by
  refine ⟨?_, by decide, by decide⟩
  intro fuel s nid nd hf hd hi
  simp [CalcNode.eval, hf, hd, hi]

/-- After erasing the first match from a list holding at most one match,
no match is left. -/
theorem eraseP_all_not_of_filter_le_one {α : Type} (p : α → Bool) :
    ∀ (l : List α), (l.filter p).length ≤ 1 → ∀ x ∈ l.eraseP p, p x = false := by
  intro l
  induction l with
  | nil => intro _ x hx; simp at hx
  | cons a t ih =>
    intro h x hx
    by_cases hpa : p a = true
    · simp only [List.eraseP_cons, hpa, cond_true] at hx
      have hft : t.filter p = [] := by
        simp only [List.filter_cons, hpa, if_true, List.length_cons] at h
        exact List.eq_nil_of_length_eq_zero (by omega)
      by_contra hpx
      have hxf : x ∈ t.filter p :=
        List.mem_filter.2 ⟨hx, by simpa using hpx⟩
      simp [hft] at hxf
    · simp only [List.eraseP_cons, Bool.not_eq_true] at hx hpa
      rw [hpa] at hx
      simp only [cond_false, List.mem_cons] at hx
      rcases hx with rfl | hx
      · exact hpa
      · refine ih ?_ x hx
        simpa [List.filter_cons, hpa] using h

/-- optRemove never touches the edge list of the scene. -/
theorem optRemove_edges (s : Scene) (o : Option Nat) (eid : Nat) :
    (optRemove s o eid).edges = s.edges := by
  cases o <;> rfl

/-- Each node of the scene after optRemove comes from a node of the
original scene with condEraseOpt applied to each of its sockets. -/
theorem sockets_after_optRemove (s : Scene) (o : Option Nat) (eid : Nat)
    {nd2 : Node} (h : nd2 ∈ (optRemove s o eid).nodes) :
    ∃ nd ∈ s.nodes, nd2.inputs ++ nd2.outputs =
      (nd.inputs ++ nd.outputs).map (condEraseOpt o eid) := by
  cases o with
  | none =>
    refine ⟨nd2, h, ?_⟩
    have hid : condEraseOpt none eid = fun so : Socket => so := rfl
    simp [hid]
  | some sid =>
    simp only [optRemove, Scene.removeEdgeFromSocket, List.mem_map] at h
    obtain ⟨nd, hnd, rfl⟩ := h
    have hce : condEraseOpt (some sid) eid = condErase sid eid := rfl
    exact ⟨nd, hnd, by simp [hce]⟩

/-- condEraseOpt does not change the socket id. -/
theorem condEraseOpt_id (o : Option Nat) (eid : Nat) (so : Socket) :
    (condEraseOpt o eid so).id = so.id := by
  cases o with
  | none => rfl
  | some sid =>
    simp only [condEraseOpt, condErase]
    split <;> rfl

/-- condEraseOpt can only drop edges from the edge list of the socket. -/
theorem condEraseOpt_sublist (o : Option Nat) (eid : Nat) (so : Socket) :
    (condEraseOpt o eid so).edges.Sublist so.edges := by
  cases o with
  | none => exact List.Sublist.refl _
  | some sid =>
    simp only [condEraseOpt, condErase]
    split
    · exact List.eraseP_sublist _
    · exact List.Sublist.refl _

/-- When the option names this very socket and the edge id occurs at most
once, condEraseOpt removes it completely. -/
theorem not_mem_condEraseOpt_self {o : Option Nat} {eid : Nat} {so : Socket}
    (h : o = some so.id)
    (hfil : (so.edges.filter (fun x => x = eid)).length ≤ 1) :
    eid ∉ (condEraseOpt o eid so).edges := by
  subst h
  simp only [condEraseOpt, condErase, if_pos rfl]
  intro habs
  have := eraseP_all_not_of_filter_le_one (fun x => x = eid) so.edges hfil
    eid habs
  simp at this

/-- Claim C4: Edge.remove detaches the edge from both sockets and from
the edge list of the scene (tolerating absence by logging), and notifies the
former endpoint nodes (on_edge_connection_changed on both, and
on_input_data_changed on an input-side node) if and only if both
endpoints were non-null before removal; a half-connected dragged edge
triggers no notifications.  The hypotheses express that the edge object
is the one found under its id, that edge ids are unique in the scene
list, that the edge id occurs (at most once) only in the edge lists of
its own endpoint sockets, and that the endpoint sockets belong to the
scene — all facts of programmatic construction (Python object
identity). -/
theorem claim_C4_edge_remove (s : Scene) (eid : Nat) (e : Edge)
    (hfind : s.findEdge eid = some e)
    (hedge : (s.edges.filter (fun x => x.id = eid)).length ≤ 1)
    (hmult : ∀ nd ∈ s.nodes, ∀ so ∈ nd.inputs ++ nd.outputs,
      eid ∈ so.edges →
        (e.start_socket = some so.id ∨ e.end_socket = some so.id) ∧
        (so.edges.filter (fun x => x = eid)).length ≤ 1)
    (hres : ∀ sid, e.start_socket = some sid ∨ e.end_socket = some sid →
      (s.findSocket sid).isSome = true) :
    (∀ nd ∈ (Edge.removeFromScene s eid).1.nodes,
       ∀ so ∈ nd.inputs ++ nd.outputs, eid ∉ so.edges)
    ∧ (∀ e2 ∈ (Edge.removeFromScene s eid).1.edges, e2.id ≠ eid)
    ∧ ((Edge.removeFromScene s eid).2 ≠ [] ↔
        (e.start_socket.isSome = true ∧ e.end_socket.isSome = true))
    ∧ (∀ ss se na nb : Nat, ∀ sa sb : Socket,
        e.start_socket = some ss → e.end_socket = some se →
        s.findSocket ss = some (na, sa) → s.findSocket se = some (nb, sb) →
        (Edge.removeFromScene s eid).2 =
          NEvent.connectionChanged na eid ::
            ((if sa.is_input then [NEvent.inputDataChanged na eid] else []) ++
              NEvent.connectionChanged nb eid ::
                (if sb.is_input then [NEvent.inputDataChanged nb eid]
                 else []))) := by
  have heid : e.id = eid := by
    have := List.find?_some hfind
    simpa using this
  have hrm1 : (Edge.removeFromScene s eid).1 =
      { optRemove (optRemove s e.end_socket eid) e.start_socket eid with
        edges := ((optRemove (optRemove s e.end_socket eid) e.start_socket
          eid).edges).eraseP (fun e2 => e2.id = eid) } := by
    simp only [Edge.removeFromScene, hfind]
  have hrm2 : (Edge.removeFromScene s eid).2 =
      (if e.start_socket.isSome && e.end_socket.isSome then
        socketNotifications s e.start_socket e.id ++
          socketNotifications s e.end_socket e.id
      else []) := by
    simp only [Edge.removeFromScene, hfind]
  refine ⟨?_, ?_, ?_, ?_⟩
  · -- after removal no socket of the scene still lists the edge
    intro nd2 hnd2 so2 hso2
    rw [hrm1] at hnd2
    replace hnd2 : nd2 ∈ (optRemove (optRemove s e.end_socket eid)
        e.start_socket eid).nodes := hnd2
    obtain ⟨nd1, hnd1, heq2⟩ := sockets_after_optRemove _ _ _ hnd2
    obtain ⟨nd, hnd, heq1⟩ := sockets_after_optRemove _ _ _ hnd1
    rw [heq2, heq1, List.map_map] at hso2
    obtain ⟨so, hso, hso2eq⟩ := List.mem_map.1 hso2
    intro habs
    rw [← hso2eq] at habs
    simp only [Function.comp_apply] at habs
    have hmemorig : eid ∈ so.edges :=
      (condEraseOpt_sublist _ _ _).subset
        ((condEraseOpt_sublist _ _ _).subset habs)
    obtain ⟨hdisj, hfil⟩ := hmult nd hnd so hso hmemorig
    rcases hdisj with hstart | hend
    · -- the start-side removal (applied second) erases the edge here
      have hid : e.start_socket = some (condEraseOpt e.end_socket eid so).id := by
        rw [condEraseOpt_id]; exact hstart
      have hfil2 : ((condEraseOpt e.end_socket eid so).edges.filter
          (fun x => x = eid)).length ≤ 1 :=
        le_trans (List.Sublist.length_le
          (List.Sublist.filter _ (condEraseOpt_sublist _ _ _))) hfil
      exact not_mem_condEraseOpt_self hid hfil2 habs
    · -- the end-side removal (applied first) erases the edge here
      have h1 : eid ∉ (condEraseOpt e.end_socket eid so).edges :=
        not_mem_condEraseOpt_self hend hfil
      exact h1 ((condEraseOpt_sublist _ _ _).subset habs)
  · -- the edge is gone from the scene edge list
    intro e2 he2
    rw [hrm1] at he2
    replace he2 : e2 ∈ ((optRemove (optRemove s e.end_socket eid)
        e.start_socket eid).edges).eraseP (fun e2 => e2.id = eid) := he2
    rw [optRemove_edges, optRemove_edges] at he2
    have := eraseP_all_not_of_filter_le_one (fun x => x.id = eid) s.edges
      hedge e2 he2
    simpa using this
  · -- notifications fire exactly for a fully connected edge
    rw [hrm2]
    constructor
    · intro hne
      by_cases hc : (e.start_socket.isSome && e.end_socket.isSome) = true
      · rw [Bool.and_eq_true] at hc
        exact hc
      · simp [hc] at hne
    · rintro ⟨h1, h2⟩
      obtain ⟨ss, hss⟩ := Option.isSome_iff_exists.1 h1
      have hfs := hres ss (Or.inl hss)
      obtain ⟨⟨na, sa⟩, hna⟩ := Option.isSome_iff_exists.1 hfs
      simp only [h1, h2, Bool.and_self, if_true, hss, ne_eq]
      simp [socketNotifications, hna]
  · -- the exact notification sequence for a fully connected edge
    intro ss se na nb sa sb h1 h2 h3 h4
    rw [hrm2]
    simp only [h1, h2, Option.isSome_some, Bool.and_self, if_true]
    simp [socketNotifications, h3, h4, heid]

/-- Claim C4 witness: the theorem applied to the fully connected edge 100
of exScene. -/
theorem claim_C4_witness :
    (exScene.findEdge 100 = some exEdge
      ∧ (exScene.edges.filter (fun x => x.id = 100)).length ≤ 1)
    ∧ (∀ nd ∈ (Edge.removeFromScene exScene 100).1.nodes,
        ∀ so ∈ nd.inputs ++ nd.outputs, (100 : Nat) ∉ so.edges)
    ∧ ((Edge.removeFromScene exScene 100).2 ≠ [] ↔
        (exEdge.start_socket.isSome = true ∧ exEdge.end_socket.isSome = true))
    ∧ (Edge.removeFromScene exScene 100).2 =
        NEvent.connectionChanged 1 100 ::
          ((if exOut1.is_input then [NEvent.inputDataChanged 1 100] else []) ++
            NEvent.connectionChanged 2 100 ::
              (if exIn2.is_input then [NEvent.inputDataChanged 2 100]
               else [])) := by
  have h := claim_C4_edge_remove exScene 100 exEdge (by decide) (by decide)
    (by decide)
    (by
      intro sid hd
      have hsid : sid = 10 ∨ sid = 20 := by
        rcases hd with hd | hd
        · left
          simpa [exEdge] using hd.symm
        · right
          simpa [exEdge] using hd.symm
      rcases hsid with rfl | rfl <;> decide)
  exact ⟨⟨by decide, by decide⟩, h.1, h.2.2.1,
    h.2.2.2 10 20 1 2 exOut1 exIn2 (by decide) (by decide) (by decide)
      (by decide)⟩

/-! ### History helper lemmas -/

theorem pyGet_nil {α : Type} (i : Int) : pyGet ([] : List α) i = none := by
  simp [pyGet]

theorem pyGet_isSome_of_bounds {α : Type} (l : List α) (i : Int)
    (h0 : 0 ≤ i) (hlt : i < (l.length : Int)) : (pyGet l i).isSome = true := by
  unfold pyGet
  rw [if_pos h0]
  have : i.toNat < l.length := by omega
  simp [List.getElem?_eq_getElem this]

theorem pyGet_append_self {α : Type} (l : List α) (x : α) (i : Int)
    (hc : i = (l.length : Int) ∨ (i = -1 ∧ l = [])) :
    pyGet (l ++ [x]) i = some x := by
  rcases hc with rfl | ⟨rfl, rfl⟩
  · unfold pyGet
    rw [if_pos (by positivity)]
    simp [List.getElem?_concat_length]
  · unfold pyGet
    norm_num

/-- truncateRedo changes only the stack and the modified-step marker. -/
theorem truncateRedo_proj (h : SceneHistory) :
    h.truncateRedo.scene = h.scene ∧ h.truncateRedo.selNodes = h.selNodes ∧
    h.truncateRedo.selEdges = h.selEdges ∧
    h.truncateRedo.inTransaction = h.inTransaction ∧
    h.truncateRedo.has_been_modified = h.has_been_modified ∧
    h.truncateRedo.history_limit = h.history_limit ∧
    h.truncateRedo.history_current_step = h.history_current_step := by
  unfold SceneHistory.truncateRedo
  split <;> simp

/-- evictOldest changes only the stack, the cursor and the marker. -/
theorem evictOldest_proj (h : SceneHistory) :
    h.evictOldest.scene = h.scene ∧ h.evictOldest.selNodes = h.selNodes ∧
    h.evictOldest.selEdges = h.selEdges ∧
    h.evictOldest.inTransaction = h.inTransaction ∧
    h.evictOldest.has_been_modified = h.has_been_modified ∧
    h.evictOldest.history_limit = h.history_limit := by
  unfold SceneHistory.evictOldest
  split <;> simp

/-- markModifiedStep changes only the marker. -/
theorem markModifiedStep_proj (m : Bool) (h : SceneHistory) :
    (h.markModifiedStep m).scene = h.scene ∧
    (h.markModifiedStep m).selNodes = h.selNodes ∧
    (h.markModifiedStep m).selEdges = h.selEdges ∧
    (h.markModifiedStep m).inTransaction = h.inTransaction ∧
    (h.markModifiedStep m).has_been_modified = h.has_been_modified ∧
    (h.markModifiedStep m).history_limit = h.history_limit ∧
    (h.markModifiedStep m).history_current_step = h.history_current_step ∧
    (h.markModifiedStep m).history_stack = h.history_stack := by
  unfold SceneHistory.markModifiedStep
  split <;> simp

/-- After truncating the redo steps the cursor sits at the end of the
stack (given the reachable-state invariant). -/
theorem truncateRedo_cursor (h : SceneHistory) (hinv : h.Inv) :
    h.truncateRedo.history_current_step + 1 =
      (h.truncateRedo.history_stack.length : Int) := by
  unfold SceneHistory.truncateRedo
  by_cases hc : h.history_current_step + 1 < (h.history_stack.length : Int)
  · rw [if_pos hc]
    by_cases hstack : h.history_stack = []
    · rcases hinv.1 hstack with hstep
      rw [hstack] at hc
      simp at hc
      omega
    · obtain ⟨h0, hlt⟩ := hinv.2 hstack
      simp only [pySliceTo, if_pos (by omega : (0:Int) ≤
        h.history_current_step + 1), List.length_take]
      have : (h.history_current_step + 1).toNat ≤ h.history_stack.length := by
        omega
      simp only [min_eq_left this]
      omega
  · rw [if_neg hc]
    by_cases hstack : h.history_stack = []
    · rcases hinv.1 hstack with hstep
      rw [hstack, hstep]
      simp
    · obtain ⟨h0, hlt⟩ := hinv.2 hstack
      omega

/-- Eviction keeps the cursor at the end of the stack, except in the
degenerate empty-stack-with-zero-limit case where it lands at -2 on the
empty stack (Python negative indexing absorbs this after the append). -/
theorem evictOldest_cursor (h : SceneHistory)
    (hc : h.history_current_step + 1 = (h.history_stack.length : Int)) :
    (h.evictOldest.history_current_step + 1 =
      (h.evictOldest.history_stack.length : Int))
    ∨ (h.evictOldest.history_current_step + 1 = -1
        ∧ h.evictOldest.history_stack = []) := by
  unfold SceneHistory.evictOldest
  split
  · by_cases hlen : h.history_stack.length = 0
    · right
      have : h.history_stack = [] := List.eq_nil_of_length_eq_zero hlen
      rw [this]
      constructor
      · simp only []
        omega
      · simp
    · left
      simp only [List.length_drop]
      omega
  · left
    exact hc

/-- evictOldest keeps an empty stack empty. -/
theorem evictOldest_nil (h : SceneHistory) (he : h.history_stack = []) :
    h.evictOldest.history_stack = [] := by
  unfold SceneHistory.evictOldest
  split <;> simp [he]

/-- truncateRedo keeps an empty stack empty. -/
theorem truncateRedo_nil (h : SceneHistory) (he : h.history_stack = []) :
    h.truncateRedo.history_stack = [] := by
  unfold SceneHistory.truncateRedo
  split <;> simp [pySliceTo, he]

/-- The push path of store_history: the new stamp ends up under the
cursor, all fields other than the history bookkeeping are preserved, and
a push onto the empty stack yields a one-entry stack. -/
theorem pushStamp_spec (h : SceneHistory) (hs : HistoryStamp) (m : Bool)
    (hinv : h.Inv) :
    pyGet ((h.truncateRedo.evictOldest.appendStamp hs).markModifiedStep
        m).history_stack
      ((h.truncateRedo.evictOldest.appendStamp hs).markModifiedStep
        m).history_current_step = some hs
    ∧ ((h.truncateRedo.evictOldest.appendStamp hs).markModifiedStep
        m).scene = h.scene
    ∧ ((h.truncateRedo.evictOldest.appendStamp hs).markModifiedStep
        m).selNodes = h.selNodes
    ∧ ((h.truncateRedo.evictOldest.appendStamp hs).markModifiedStep
        m).selEdges = h.selEdges
    ∧ ((h.truncateRedo.evictOldest.appendStamp hs).markModifiedStep
        m).inTransaction = h.inTransaction
    ∧ ((h.truncateRedo.evictOldest.appendStamp hs).markModifiedStep
        m).has_been_modified = h.has_been_modified
    ∧ (h.history_stack = [] →
        ((h.truncateRedo.evictOldest.appendStamp hs).markModifiedStep
          m).history_stack.length = 1) := by
  obtain ⟨ht1, ht2, ht3, ht4, ht5, ht6, ht7⟩ := truncateRedo_proj h
  obtain ⟨he1, he2, he3, he4, he5, he6⟩ := evictOldest_proj h.truncateRedo
  obtain ⟨hm1, hm2, hm3, hm4, hm5, hm6, hm7, hm8⟩ :=
    markModifiedStep_proj m (h.truncateRedo.evictOldest.appendStamp hs)
  have hcur := evictOldest_cursor h.truncateRedo (truncateRedo_cursor h hinv)
  refine ⟨?_, ?_, ?_, ?_, ?_, ?_, ?_⟩
  · rw [hm8, hm7]
    show pyGet (h.truncateRedo.evictOldest.history_stack ++ [hs])
      (h.truncateRedo.evictOldest.history_current_step + 1) = some hs
    apply pyGet_append_self
    rcases hcur with hcur | ⟨hcur, hnil⟩
    · left; omega
    · right; exact ⟨by omega, hnil⟩
  · rw [hm1]; show h.truncateRedo.evictOldest.scene = h.scene
    rw [he1, ht1]
  · rw [hm2]; show h.truncateRedo.evictOldest.selNodes = h.selNodes
    rw [he2, ht2]
  · rw [hm3]; show h.truncateRedo.evictOldest.selEdges = h.selEdges
    rw [he3, ht3]
  · rw [hm4]; show h.truncateRedo.evictOldest.inTransaction = h.inTransaction
    rw [he4, ht4]
  · rw [hm5]
    show h.truncateRedo.evictOldest.has_been_modified = h.has_been_modified
    rw [he5, ht5]
  · intro hnil
    rw [hm8]
    show (h.truncateRedo.evictOldest.history_stack ++ [hs]).length = 1
    rw [evictOldest_nil _ (truncateRedo_nil _ hnil)]
    rfl

/-- store_history under the reachable-state invariant, outside a
transaction: it returns a state whose scene, selection and transaction
flag are unchanged, whose modified flag has absorbed the argument, whose
cursor stamp carries the current snapshot and selection, and which gained
exactly one stack entry when the stack was empty. -/
theorem storeHistory_spec (h : SceneHistory) (d : String) (m : Bool)
    (hnt : h.inTransaction = false) (hinv : h.Inv) :
    ∃ h2, h.storeHistory d m = some h2
      ∧ h2.scene = h.scene ∧ h2.selNodes = h.selNodes
      ∧ h2.selEdges = h.selEdges
      ∧ h2.inTransaction = false
      ∧ h2.has_been_modified = (h.has_been_modified || m)
      ∧ (∃ hcs, pyGet h2.history_stack h2.history_current_step = some hcs
           ∧ hcs.snapshot = h.scene.serialize
           ∧ hcs.selection = ⟨h.selNodes, h.selEdges⟩)
      ∧ (h.history_stack = [] → h2.history_stack.length = 1) := by
  have hinv1 : (h.withModifiedFlag m).Inv := hinv
  unfold SceneHistory.storeHistory
  rw [if_neg (by rw [hnt]; exact Bool.false_ne_true)]
  by_cases hempty : (h.withModifiedFlag m).history_stack.isEmpty
  · rw [if_pos hempty]
    obtain ⟨hp1, hp2, hp3, hp4, hp5, hp6, hp7⟩ :=
      pushStamp_spec (h.withModifiedFlag m)
        ((h.withModifiedFlag m).createHistoryStamp d) m hinv1
    refine ⟨_, rfl, hp2, hp3, hp4, by rw [hp5]; exact hnt, hp6,
      ⟨_, hp1, rfl, rfl⟩, fun hn => hp7 (by simpa [SceneHistory.withModifiedFlag] using hn)⟩
  · rw [if_neg hempty]
    have hne : (h.withModifiedFlag m).history_stack ≠ [] := by
      intro habs
      rw [habs] at hempty
      simp at hempty
    obtain ⟨h0, hlt⟩ := hinv1.2 hne
    have hget := pyGet_isSome_of_bounds (h.withModifiedFlag m).history_stack
      (h.withModifiedFlag m).history_current_step h0 hlt
    obtain ⟨hcs, hhcs⟩ := Option.isSome_iff_exists.1 hget
    rw [hhcs]
    dsimp only
    by_cases heq : hcs.snapshot =
        ((h.withModifiedFlag m).createHistoryStamp d).snapshot ∧
        hcs.selection = ((h.withModifiedFlag m).createHistoryStamp d).selection
    · rw [if_pos heq]
      exact ⟨_, rfl, rfl, rfl, rfl, hnt, rfl, ⟨hcs, hhcs, heq.1, heq.2⟩,
        fun hn => absurd hn hne⟩
    · rw [if_neg heq]
      obtain ⟨hp1, hp2, hp3, hp4, hp5, hp6, hp7⟩ :=
        pushStamp_spec (h.withModifiedFlag m)
          ((h.withModifiedFlag m).createHistoryStamp d) m hinv1
      exact ⟨_, rfl, hp2, hp3, hp4, by rw [hp5]; exact hnt, hp6,
        ⟨_, hp1, rfl, rfl⟩, fun hn => absurd hn hne⟩

/-- Claim C10: store_history(desc, modified=True) outside a transaction
always leaves scene.has_been_modified True afterwards — even when the new
stamp equals the stamp at the cursor and no entry is pushed — because the
or-assignment of the flag happens before the deduplication check.  The
invariant hypothesis describes reachable cursor states. -/
theorem claim_C10_store_history_sets_modified (h : SceneHistory)
    (desc : String) (hnt : h.inTransaction = false) (hinv : h.Inv) :
    ∃ h2, h.storeHistory desc true = some h2
      ∧ h2.has_been_modified = true := by
  obtain ⟨h2, hst, _, _, _, _, hbm, _, _⟩ := storeHistory_spec h desc true
    hnt hinv
  exact ⟨h2, hst, by rw [hbm]; exact Bool.or_true _⟩

/-- Claim C10 witness: the theorem applied to the initial history state
of a fresh document. -/
theorem claim_C10_witness :
    (histInit.inTransaction = false ∧ histInit.Inv)
    ∧ ∃ h2, histInit.storeHistory "x" true = some h2
        ∧ h2.has_been_modified = true :=
  ⟨⟨by decide, by decide⟩,
    claim_C10_store_history_sets_modified histInit "x" (by decide)
      (by decide)⟩

/-- Claim C8: store_history is idempotent on an unchanged scene: under
the reachable-state invariant and outside a transaction, the first call
yields a state on which the very same call is a complete no-op (the new
stamp equals the stamp at the cursor, so it is not pushed), and a call on
an empty stack yields exactly one new entry. -/
theorem claim_C8_store_history_idempotent (h : SceneHistory) (desc : String)
    (m : Bool) (hnt : h.inTransaction = false) (hinv : h.Inv) :
    ∃ h1, h.storeHistory desc m = some h1
      ∧ h1.storeHistory desc m = some h1
      ∧ (h.history_stack = [] → h1.history_stack.length = 1) := by
  obtain ⟨h1, hst, hscene, hselN, hselE, htrans, hbm, ⟨hcs, hget, hsnap,
    hsel⟩, hlen⟩ := storeHistory_spec h desc m hnt hinv
  refine ⟨h1, hst, ?_, hlen⟩
  have habs : (h1.has_been_modified || m) = h1.has_been_modified := by
    rw [hbm]
    cases h.has_been_modified <;> cases m <;> rfl
  have hwm : h1.withModifiedFlag m = h1 := by
    unfold SceneHistory.withModifiedFlag
    rw [habs]
  have hne : h1.history_stack ≠ [] := by
    intro hnil
    rw [hnil, pyGet_nil] at hget
    exact Option.noConfusion hget
  unfold SceneHistory.storeHistory
  rw [if_neg (by rw [htrans]; exact Bool.false_ne_true)]
  rw [hwm]
  rw [if_neg (by simpa using hne)]
  rw [hget]
  dsimp only
  rw [if_pos ⟨by simp [SceneHistory.createHistoryStamp, hsnap, hscene],
    by simp [SceneHistory.createHistoryStamp, hsel, hselN, hselE]⟩]

/-- Claim C8 witness: the theorem applied to the initial history state;
the first store pushes the single baseline entry, the second is a no-op. -/
theorem claim_C8_witness :
    (histInit.inTransaction = false ∧ histInit.Inv
      ∧ histInit.history_stack = [])
    ∧ ∃ h1, histInit.storeHistory "x" true = some h1
        ∧ h1.storeHistory "x" true = some h1
        ∧ (histInit.history_stack = [] → h1.history_stack.length = 1) :=
  ⟨⟨by decide, by decide, by decide⟩,
    claim_C8_store_history_idempotent histInit "x" true (by decide)
      (by decide)⟩

/-! ### mark_descendants_dirty lemmas -/

/-- Marking a node dirty preserves every flag already set. -/
theorem markDirtyFlag_mono (c : Nat) (d : Nat → Bool) (m : Nat)
    (h : d m = true) : markDirtyFlag false c d m = true := by
  unfold markDirtyFlag
  split <;> simp [h]

/-- With enough fuel for the rank of the start node, the depth-first
descendant marking terminates, marks monotonically, and marks every
reachable node. -/
theorem markDescendantsDirty_acyclic (s : Scene) (r : Nat → Nat)
    (hr : ∀ a b, b ∈ Node.getChildrenIds s a → r b < r a) :
    ∀ (fuel : Nat) (n : Nat), r n < fuel → ∀ (d : Nat → Bool),
      ∃ d2, Node.markDescendantsDirty s false fuel d n = some d2
        ∧ (∀ m, d m = true → d2 m = true)
        ∧ (∀ m, Reaches s n m → d2 m = true) := by
  intro fuel
  induction fuel with
  | zero => intro n h; omega
  | succ f ih =>
    intro n hn d
    have hinner : ∀ (cs : List Nat), (∀ c ∈ cs, r c < f) → ∀ (d0 : Nat → Bool),
        ∃ d2, markDescendantsGo
            (fun d2 n2 => Node.markDescendantsDirty s false f d2 n2) false cs
            d0 = some d2
          ∧ (∀ m, d0 m = true → d2 m = true)
          ∧ (∀ c ∈ cs, d2 c = true ∧ ∀ m, Reaches s c m → d2 m = true) := by
      intro cs
      induction cs with
      | nil =>
        intro _ d0
        exact ⟨d0, rfl, fun m hm => hm, by simp⟩
      | cons c cs2 ih2 =>
        intro hcs d0
        obtain ⟨d1, hrec, hmono1, hreach1⟩ :=
          ih c (hcs c (List.mem_cons_self c cs2)) (markDirtyFlag false c d0)
        obtain ⟨d2, hgo, hmono2, hrest⟩ :=
          ih2 (fun c2 hc2 => hcs c2 (List.mem_cons_of_mem c hc2)) d1
        refine ⟨d2, ?_, ?_, ?_⟩
        · show (match Node.markDescendantsDirty s false f
              (markDirtyFlag false c d0) c with
            | none => none
            | some d3 => markDescendantsGo
                (fun d2 n2 => Node.markDescendantsDirty s false f d2 n2)
                false cs2 d3) = some d2
          rw [hrec]
          exact hgo
        · intro m hm
          exact hmono2 m (hmono1 m (markDirtyFlag_mono c d0 m hm))
        · intro c2 hc2
          rcases List.mem_cons.1 hc2 with rfl | hc2
          · refine ⟨hmono2 c2 (hmono1 c2 ?_), fun m hm =>
              hmono2 m (hreach1 m hm)⟩
            unfold markDirtyFlag
            simp
          · exact hrest c2 hc2
    obtain ⟨d2, hgo, hmono, hchild⟩ := hinner (Node.getChildrenIds s n)
      (fun c hc => lt_of_lt_of_le (hr n c hc) (by omega)) d
    refine ⟨d2, hgo, hmono, ?_⟩
    intro m hm
    cases hm with
    | head hb => exact (hchild m hb).1
    | cons hb hbc =>
      rename_i b
      exact (hchild b hb).2 m hbc

/-- On the two-node cycle the unguarded recursion never terminates: every
fuel bound is exhausted. -/
theorem markDescendantsDirty_cyclic :
    ∀ (fuel : Nat) (d : Nat → Bool) (n : Nat), n = 1 ∨ n = 2 →
      Node.markDescendantsDirty cycScene false fuel d n = none := by
  intro fuel
  induction fuel with
  | zero => intro d n _; rfl
  | succ f ih =>
    have hch1 : Node.getChildrenIds cycScene 1 = [2] := by decide
    have hch2 : Node.getChildrenIds cycScene 2 = [1] := by decide
    intro d n hn
    rcases hn with rfl | rfl
    · show markDescendantsGo
        (fun d2 n2 => Node.markDescendantsDirty cycScene false f d2 n2) false
        (Node.getChildrenIds cycScene 1) d = none
      rw [hch1]
      show (match Node.markDescendantsDirty cycScene false f
          (markDirtyFlag false 2 d) 2 with
        | none => none
        | some d3 => markDescendantsGo
            (fun d2 n2 => Node.markDescendantsDirty cycScene false f d2 n2)
            false [] d3) = none
      rw [ih _ 2 (Or.inr rfl)]
    · show markDescendantsGo
        (fun d2 n2 => Node.markDescendantsDirty cycScene false f d2 n2) false
        (Node.getChildrenIds cycScene 2) d = none
      rw [hch2]
      show (match Node.markDescendantsDirty cycScene false f
          (markDirtyFlag false 1 d) 1 with
        | none => none
        | some d3 => markDescendantsGo
            (fun d2 n2 => Node.markDescendantsDirty cycScene false f d2 n2)
            false [] d3) = none
      rw [ih _ 1 (Or.inl rfl)]

/-- Claim C9: on a scene whose outgoing-edge graph is acyclic (witnessed
by a rank function decreasing along edges) mark_descendants_dirty
terminates — fuel rank+1 suffices — and afterwards every node reachable
via outgoing edges is dirty (and no dirty flag is lost); on the cyclic
two-node scene the unguarded recursion exhausts every fuel bound, i.e.
it does not terminate. -/
theorem claim_C9_mark_descendants_dirty :
    (∀ (s : Scene) (r : Nat → Nat),
      (∀ a b, b ∈ Node.getChildrenIds s a → r b < r a) →
      ∀ (n : Nat) (d : Nat → Bool),
        ∃ d2, Node.markDescendantsDirty s false (r n + 1) d n = some d2
          ∧ (∀ m, Reaches s n m → d2 m = true)
          ∧ (∀ m, d m = true → d2 m = true))
    ∧ (∀ (fuel : Nat) (d : Nat → Bool),
        Node.markDescendantsDirty cycScene false fuel d 1 = none) := by
  constructor
  · intro s r hr n d
    obtain ⟨d2, hrun, hmono, hreach⟩ :=
      markDescendantsDirty_acyclic s r hr (r n + 1) n (by omega) d
    exact ⟨d2, hrun, hreach, hmono⟩
  · intro fuel d
    exact markDescendantsDirty_cyclic fuel d 1 (Or.inl rfl)

/-- Claim C9 witness: the acyclic clause applied to exScene (node 1 feeds
node 2) with the rank function 2 - n, showing node 2 ends up dirty. -/
theorem claim_C9_witness :
    ∃ d2, Node.markDescendantsDirty exScene false 2 (fun _ => false) 1
        = some d2
      ∧ d2 2 = true := by
  have hrank : ∀ a b, b ∈ Node.getChildrenIds exScene a → 2 - b < 2 - a := by
    intro a b hb
    by_cases ha1 : a = 1
    · subst ha1
      have hch : Node.getChildrenIds exScene 1 = [2] := by decide
      rw [hch] at hb
      simp at hb
      omega
    · by_cases ha2 : a = 2
      · subst ha2
        have hch : Node.getChildrenIds exScene 2 = [] := by decide
        rw [hch] at hb
        simp at hb
      · have hch : Node.getChildrenIds exScene a = [] := by
          have hfind : exScene.findNode a = none := by
            have h1 : ((1 : Nat) = a) = False := by
              simp only [eq_iff_iff, iff_false]
              omega
            have h2 : ((2 : Nat) = a) = False := by
              simp only [eq_iff_iff, iff_false]
              omega
            simp [Scene.findNode, exScene, exNode1, exNode2, List.find?,
              h1, h2]
          simp [Node.getChildrenIds, hfind]
        rw [hch] at hb
        simp at hb
  obtain ⟨d2, hrun, hreach, _⟩ := claim_C9_mark_descendants_dirty.1 exScene
    (fun n => 2 - n) hrank 1 (fun _ => false)
  exact ⟨d2, hrun, hreach 2 (Reaches.head (by decide))⟩

/-! ### Serialization round-trip lemmas -/

/-- Stable insertion into a list whose head is already no smaller keeps
the list unchanged. -/
theorem sortedInsertSocket_le (a : SocketSer) (l : List SocketSer) :
    ∀ (hle : match l with
      | [] => True
      | b :: _ => socketSortKey a ≤ socketSortKey b),
    sortedInsertSocket a l = a :: l := by
  intro hle
  cases l with
  | nil => rfl
  | cons b t =>
    unfold sortedInsertSocket
    rw [if_pos hle]

/-- The stable Python sort leaves an already key-sorted list unchanged. -/
theorem sortSocketData_of_sorted :
    ∀ (l : List SocketSer), isKeySorted l = true → sortSocketData l = l := by
  intro l
  induction l with
  | nil => intro _; rfl
  | cons a t ih =>
    intro h
    unfold sortSocketData
    cases t with
    | nil => rfl
    | cons b t2 =>
      have hab : socketSortKey a ≤ socketSortKey b := by
        have := h
        unfold isKeySorted at this
        simp only [Bool.and_eq_true, decide_eq_true_eq] at this
        exact this.1
      have ht : isKeySorted (b :: t2) = true := by
        have := h
        unfold isKeySorted at this
        simp only [Bool.and_eq_true] at this
        exact this.2
      rw [ih ht]
      exact sortedInsertSocket_le a (b :: t2) hab

/-- Round trip of a single socket record through the Socket constructor
and Socket.deserialize with restore_id true: the rebuilt socket carries
the original id, index, position, type and multi-flag (and a fresh empty
edge list), and the hashmap gains the self-referencing entry. -/
theorem socket_new_deserialize (so : Socket) (hin : Bool) (hm : HMap)
    (fresh : Nat) :
    Socket.deserialize
        (Socket.new fresh so.serialize.index so.serialize.position
          so.serialize.socket_type hin) so.serialize hm true
      = ({ id := so.id, index := so.index, position := so.position,
           socket_type := so.socket_type,
           is_multi_edges := so.is_multi_edges, is_input := hin,
           edges := [] }, socketEntry so :: hm) := by
  simp [Socket.new, Socket.deserialize, Socket.serialize,
    determineMultiEdges, hmInsert, socketEntry]

/-- The per-side socket loop of Node.deserialize on serialized records of
existing sockets: it rebuilds serialize-identical sockets and prepends
exactly the self-referencing entries, newest first. -/
theorem socketsLoop_roundtrip (hin : Bool) :
    ∀ (socks : List Socket) (hm : HMap) (fresh : Nat),
    ∃ ss fresh2,
      socketsLoop hin true (socks.map Socket.serialize) hm fresh
        = (ss, (socks.map socketEntry).reverse ++ hm, fresh2)
      ∧ ss.map Socket.serialize = socks.map Socket.serialize := by
  intro socks
  induction socks with
  | nil => intro hm fresh; exact ⟨[], fresh, rfl, rfl⟩
  | cons so rest ih =>
    intro hm fresh
    obtain ⟨ss, fresh2, hloop, hser⟩ := ih (socketEntry so :: hm) (fresh + 1)
    refine ⟨{ id := so.id, index := so.index, position := so.position,
              socket_type := so.socket_type,
              is_multi_edges := so.is_multi_edges,
              is_input := hin, edges := [] } :: ss, fresh2, ?_, ?_⟩
    · show socketsLoop hin true (so.serialize :: rest.map Socket.serialize)
        hm fresh = _
      unfold socketsLoop
      simp only [socket_new_deserialize so hin hm fresh, hloop,
        List.map_cons, List.reverse_cons, List.append_assoc,
        List.singleton_append]
    · simp only [List.map_cons, hser, List.cons.injEq, and_true]
      simp [Socket.serialize]

/-- Node.deserialize on the serialized record of an existing node whose
socket records are key-sorted, with restore_id true: the rebuilt node
serializes identically, and exactly the nodeEntries are prepended to the
hashmap. -/
theorem nodeDeserialize_roundtrip (n : Node) (hm : HMap) (fresh0 fresh : Nat)
    (hsin : isKeySorted (n.inputs.map Socket.serialize) = true)
    (hsout : isKeySorted (n.outputs.map Socket.serialize) = true) :
    ∃ n1 fresh2, Node.deserialize (Node.new fresh0) n.serialize hm true fresh
        = (n1, nodeEntries n ++ hm, fresh2)
      ∧ n1.serialize = n.serialize := by
  have hdin : n.serialize.inputs = n.inputs.map Socket.serialize := rfl
  have hdout : n.serialize.outputs = n.outputs.map Socket.serialize := rfl
  obtain ⟨ssIn, freshA, hloopIn, hserIn⟩ :=
    socketsLoop_roundtrip true n.inputs
      ((n.id, ERef.nodeRef n.id) :: hm) fresh
  obtain ⟨ssOut, freshB, hloopOut, hserOut⟩ :=
    socketsLoop_roundtrip false n.outputs
      ((n.inputs.map socketEntry).reverse ++ (n.id, ERef.nodeRef n.id) :: hm)
      freshA
  refine ⟨{ id := n.id, title := n.title, pos_x := n.pos_x,
            pos_y := n.pos_y, inputs := ssIn, outputs := ssOut },
    freshB, ?_, ?_⟩
  · unfold Node.deserialize
    have hid : n.serialize.id = n.id := rfl
    simp only [if_true, hmInsert, Node.new, hid, hdin, hdout,
      sortSocketData_of_sorted _ hsin, sortSocketData_of_sorted _ hsout,
      hloopIn, hloopOut, nodeEntries, List.append_assoc,
      List.singleton_append]
    rfl
  · simp only [Node.serialize, hserIn, hserOut]

/-- The node phase of Scene.deserialize on the serialized nodes of an
existing scene: serialize-identical nodes are appended in order and the
hashmap receives exactly the sceneEntries. -/
theorem nodesLoop_roundtrip :
    ∀ (ns : List Node) (s0 : Scene) (hm : HMap) (fresh : Nat),
    (∀ n ∈ ns, isKeySorted (n.inputs.map Socket.serialize) = true ∧
      isKeySorted (n.outputs.map Socket.serialize) = true) →
    ∃ ns2 fresh2, nodesLoop true (ns.map Node.serialize) s0 hm fresh
        = ({ s0 with nodes := s0.nodes ++ ns2 }, sceneEntries ns ++ hm,
           fresh2)
      ∧ ns2.map Node.serialize = ns.map Node.serialize := by
  intro ns
  induction ns with
  | nil =>
    intro s0 hm fresh _
    refine ⟨[], fresh, ?_, rfl⟩
    show (s0, hm, fresh) = _
    simp [sceneEntries]
  | cons n rest ih =>
    intro s0 hm fresh hsorted
    obtain ⟨n1, fresh1, hnode, hser1⟩ := nodeDeserialize_roundtrip n hm fresh
      (fresh + 1) (hsorted n (List.mem_cons_self n rest)).1
      (hsorted n (List.mem_cons_self n rest)).2
    obtain ⟨ns2, fresh2, hloop, hser2⟩ :=
      ih { s0 with nodes := s0.nodes ++ [n1] } (nodeEntries n ++ hm)
        fresh1 (fun n2 h2 => hsorted n2 (List.mem_cons_of_mem n h2))
    refine ⟨n1 :: ns2, fresh2, ?_, ?_⟩
    · show nodesLoop true (n.serialize :: rest.map Node.serialize) s0 hm
        fresh = _
      unfold nodesLoop
      simp [hnode, hloop, sceneEntries, List.append_assoc]
    · simp only [List.map_cons, hser1, hser2]

/-- In a hashmap where every entry under the given key is the
self-referencing socket entry, lookup of a present key resolves to that
socket reference. -/
theorem hmGet_selfref :
    ∀ (m : HMap) (sid : Nat),
    (∀ p ∈ m, p.2 = ERef.socketRef p.1 ∨ p.1 ≠ sid) →
    sid ∈ hmKeys m → hmGet m sid = some (ERef.socketRef sid) := by
  intro m
  induction m with
  | nil => intro sid _ hmem; simp [hmKeys] at hmem
  | cons p rest ih =>
    intro sid hall hmem
    by_cases hk : p.1 = sid
    · have hv : p.2 = ERef.socketRef p.1 := by
        rcases hall p (List.mem_cons_self p rest) with h | h
        · exact h
        · exact absurd hk h
      unfold hmGet
      rw [List.find?_cons_of_pos _ (by simpa using hk)]
      simp [hv, hk]
    · have hmem2 : sid ∈ hmKeys rest := by
        simp only [hmKeys, List.map_cons, List.mem_cons] at hmem
        rcases hmem with h | h
        · exact absurd h.symm hk
        · exact h
      have := ih sid (fun q hq => hall q (List.mem_cons_of_mem p hq)) hmem2
      unfold hmGet at this ⊢
      rw [List.find?_cons_of_neg _ (by simpa using hk)]
      exact this

/-- Membership in the entries of one node. -/
theorem mem_nodeEntries {p : Nat × ERef} {n : Node} :
    p ∈ nodeEntries n ↔
      (p = (n.id, ERef.nodeRef n.id)
        ∨ ∃ so ∈ n.inputs ++ n.outputs, p = socketEntry so) := by
  simp only [nodeEntries, List.mem_append, List.mem_reverse, List.mem_map,
    List.mem_singleton, List.mem_cons]
  constructor
  · rintro ((⟨so, hso, rfl⟩ | ⟨so, hso, rfl⟩) | (hp | hp))
    · exact Or.inr ⟨so, Or.inr hso, rfl⟩
    · exact Or.inr ⟨so, Or.inl hso, rfl⟩
    · exact Or.inl hp
    · simp at hp
  · rintro (hp | ⟨so, hso | hso, rfl⟩)
    · exact Or.inr (Or.inl hp)
    · exact Or.inl (Or.inr ⟨so, hso, rfl⟩)
    · exact Or.inl (Or.inl ⟨so, hso, rfl⟩)

/-- Membership in the hashmap built by the node phase. -/
theorem mem_sceneEntries {p : Nat × ERef} :
    ∀ {ns : List Node}, p ∈ sceneEntries ns ↔ ∃ n ∈ ns, p ∈ nodeEntries n := by
  intro ns
  induction ns with
  | nil => simp [sceneEntries]
  | cons n rest ih =>
    simp only [sceneEntries, List.mem_append, ih, List.mem_cons]
    constructor
    · rintro (⟨n2, h2, hp⟩ | hp)
      · exact ⟨n2, Or.inr h2, hp⟩
      · exact ⟨n, Or.inl rfl, hp⟩
    · rintro ⟨n2, (rfl | h2), hp⟩
      · exact Or.inr hp
      · exact Or.inl ⟨n2, h2, hp⟩

/-- After the node phase, a socket id of the scene that is distinct from
every node id resolves to its self-reference. -/
theorem hmGet_sceneEntries (ns : List Node) (sid : Nat)
    (hnodeids : ∀ n ∈ ns, n.id ≠ sid)
    (hmem : ∃ n ∈ ns, ∃ so ∈ n.inputs ++ n.outputs, so.id = sid) :
    hmGet (sceneEntries ns) sid = some (ERef.socketRef sid) := by
  apply hmGet_selfref
  · intro p hp
    rcases mem_sceneEntries.1 hp with ⟨n, hn, hpn⟩
    rcases mem_nodeEntries.1 hpn with rfl | ⟨so, _, rfl⟩
    · exact Or.inr (hnodeids n hn)
    · exact Or.inl rfl
  · obtain ⟨n, hn, so, hso, rfl⟩ := hmem
    have : socketEntry so ∈ sceneEntries ns :=
      mem_sceneEntries.2 ⟨n, hn, mem_nodeEntries.2 (Or.inr ⟨so, hso, rfl⟩)⟩
    simpa [hmKeys, socketEntry] using List.mem_map_of_mem Prod.fst this

/-- Adding an edge id to the edge list of a socket changes no serialized
output and none of the other scene components. -/
theorem addEdgeToSocket_preserves (s : Scene) (k eid : Nat) :
    ((s.addEdgeToSocket k eid).nodes).map Node.serialize
        = s.nodes.map Node.serialize
    ∧ (s.addEdgeToSocket k eid).edges = s.edges
    ∧ (s.addEdgeToSocket k eid).id = s.id
    ∧ (s.addEdgeToSocket k eid).scene_width = s.scene_width
    ∧ (s.addEdgeToSocket k eid).scene_height = s.scene_height := by
  refine ⟨?_, rfl, rfl, rfl, rfl⟩
  have hsock : ∀ so : Socket, Socket.serialize
      (if so.id = k then { so with edges := so.edges ++ [eid] } else so)
      = Socket.serialize so := by
    intro so
    split <;> rfl
  simp only [Scene.addEdgeToSocket, List.map_map]
  apply List.map_congr_left
  intro nd _
  simp only [Function.comp_apply, Node.serialize, List.map_map]
  congr 1
  · exact List.map_congr_left (fun so _ => hsock so)
  · exact List.map_congr_left (fun so _ => hsock so)

/-- One edge reconstruction step on the serialized record of an existing
fully connected edge whose endpoints resolve through the hashmap. -/
theorem sceneEdgeStep_roundtrip (s : Scene) (e : Edge) (hm : HMap)
    (fresh ss se : Nat)
    (hs : e.start_socket = some ss) (he : e.end_socket = some se)
    (hgs : hmGet hm ss = some (ERef.socketRef ss))
    (hge : hmGet hm se = some (ERef.socketRef se)) :
    sceneEdgeStep s e.serialize hm true fresh
      = some { (s.addEdgeToSocket ss e.id).addEdgeToSocket se e.id with
          edges := ((s.addEdgeToSocket ss e.id).addEdgeToSocket se
              e.id).edges
            ++ [{ id := e.id, edge_type := e.edge_type,
                  start_socket := some ss, end_socket := some se }] } := by
  have h1 : e.serialize.start = some ss := by simp [Edge.serialize, hs]
  have h2 : e.serialize.stop = some se := by simp [Edge.serialize, he]
  simp only [sceneEdgeStep, h1, h2, hgs, hge, if_true]
  rfl

/-- The edge phase of Scene.deserialize on serialized records of existing
fully connected, resolvable edges: value-identical edges are appended in
order and the serialized output of the nodes is untouched. -/
theorem edgesLoop_roundtrip :
    ∀ (el : List Edge) (s : Scene) (hm : HMap) (fresh : Nat),
    (∀ e ∈ el, ∃ ss se, e.start_socket = some ss ∧ e.end_socket = some se
      ∧ hmGet hm ss = some (ERef.socketRef ss)
      ∧ hmGet hm se = some (ERef.socketRef se)) →
    ∃ s2, edgesLoop true (el.map Edge.serialize) s hm fresh = some s2
      ∧ s2.nodes.map Node.serialize = s.nodes.map Node.serialize
      ∧ s2.edges = s.edges ++ el.map (fun e =>
          { id := e.id, edge_type := e.edge_type,
            start_socket := e.start_socket, end_socket := e.end_socket })
      ∧ s2.id = s.id ∧ s2.scene_width = s.scene_width
      ∧ s2.scene_height = s.scene_height := by
  intro el
  induction el with
  | nil =>
    intro s hm fresh _
    exact ⟨s, rfl, rfl, by simp, rfl, rfl, rfl⟩
  | cons e rest ih =>
    intro s hm fresh hres
    obtain ⟨ss, se, hs, he, hgs, hge⟩ := hres e (List.mem_cons_self e rest)
    obtain ⟨pa1, pa2, pa3, pa4, pa5⟩ := addEdgeToSocket_preserves s ss e.id
    obtain ⟨pb1, pb2, pb3, pb4, pb5⟩ :=
      addEdgeToSocket_preserves (s.addEdgeToSocket ss e.id) se e.id
    obtain ⟨s2, hloop, hnodes, hedges, hid, hw, hh⟩ :=
      ih { (s.addEdgeToSocket ss e.id).addEdgeToSocket se e.id with
        edges := ((s.addEdgeToSocket ss e.id).addEdgeToSocket se e.id).edges
          ++ [{ id := e.id, edge_type := e.edge_type,
                start_socket := some ss, end_socket := some se }] }
        hm (fresh + 1)
        (fun e2 h2 => hres e2 (List.mem_cons_of_mem e h2))
    refine ⟨s2, ?_, ?_, ?_, ?_, ?_, ?_⟩
    · show edgesLoop true (e.serialize :: rest.map Edge.serialize) s hm
        fresh = some s2
      unfold edgesLoop
      rw [sceneEdgeStep_roundtrip s e hm fresh ss se hs he hgs hge]
      exact hloop
    · rw [hnodes]
      show ((s.addEdgeToSocket ss e.id).addEdgeToSocket se
        e.id).nodes.map Node.serialize = s.nodes.map Node.serialize
      rw [pb1, pa1]
    · rw [hedges]
      show (((s.addEdgeToSocket ss e.id).addEdgeToSocket se e.id).edges
          ++ _) ++ _ = _
      rw [pb2, pa2, List.append_assoc, List.singleton_append,
        List.map_cons, hs, he]
    · rw [hid]; show ((s.addEdgeToSocket ss e.id).addEdgeToSocket se
        e.id).id = s.id
      rw [pb3, pa3]
    · rw [hw]; show ((s.addEdgeToSocket ss e.id).addEdgeToSocket se
        e.id).scene_width = s.scene_width
      rw [pb4, pa4]
    · rw [hh]; show ((s.addEdgeToSocket ss e.id).addEdgeToSocket se
        e.id).scene_height = s.scene_height
      rw [pb5, pa5]

/-- Supporting evidence that the round trip claimed by C1 is the intent
and the positional restore_id a slip: under the one-token keyword fix
(Scene.deserializeFixed), for every programmatically built Scene (unique
ids, sockets created in key order, fully connected edges referencing
scene sockets, constructor dimensions) deserializing its serialize()
output into a fresh Scene with restore_id = True succeeds and
re-serializes structurally equal — ids, node positions, socket
orderings, edge endpoint socket ids and content are all preserved. -/
theorem serialize_roundtrip_with_keyword_fix (s : Scene) (fresh : Nat)
    (hwf : sceneWF s = true) :
    ∃ s2, Scene.deserializeFixed fresh s.serialize true = some s2
      ∧ s2.serialize = s.serialize := by
  have hw := hwf
  unfold sceneWF at hw
  simp only [Bool.and_eq_true, decide_eq_true_eq, List.all_eq_true] at hw
  obtain ⟨⟨⟨⟨hwidth, hheight⟩, hnodup⟩, hsorted⟩, hedges⟩ := hw
  have hdisj : (s.nodes.map Node.id).Disjoint s.socketIds :=
    ((List.nodup_append.mp hnodup).2.2)
  -- the node phase
  obtain ⟨ns2, fresh2, hnl, hns⟩ := nodesLoop_roundtrip s.nodes
    { Scene.new fresh with id := s.serialize.id } [] (fresh + 1)
    (fun n hn => by
      have := hsorted n hn
      simp only [Bool.and_eq_true] at this
      exact this)
  -- resolvability of the kept edges through the filled hashmap
  have hresolve : ∀ e ∈ s.edges.filter (fun e => e.end_socket.isSome),
      ∃ ss se, e.start_socket = some ss ∧ e.end_socket = some se
        ∧ hmGet (sceneEntries s.nodes ++ []) ss
            = some (ERef.socketRef ss)
        ∧ hmGet (sceneEntries s.nodes ++ []) se
            = some (ERef.socketRef se) := by
    intro e he
    rw [List.mem_filter] at he
    have hedge := hedges e he.1
    rw [he.2] at hedge
    simp only [Bool.not_true, Bool.false_or, Bool.and_eq_true] at hedge
    have hlookup : ∀ o : Option Nat, optSocketInScene o s = true →
        ∃ sid, o = some sid
          ∧ hmGet (sceneEntries s.nodes ++ []) sid
              = some (ERef.socketRef sid) := by
      intro o ho
      cases o with
      | none => simp [optSocketInScene] at ho
      | some sid =>
        refine ⟨sid, rfl, ?_⟩
        rw [List.append_nil]
        simp only [optSocketInScene, decide_eq_true_eq] at ho
        apply hmGet_sceneEntries
        · intro n hn habs
          exact hdisj (List.mem_map_of_mem Node.id hn) (habs ▸ ho)
        · simp only [Scene.socketIds, List.mem_flatten, List.mem_map]
            at ho
          obtain ⟨_, ⟨n, hn, rfl⟩, hsid⟩ := ho
          simp only [Node.socketIds, List.mem_map] at hsid
          obtain ⟨so, hso, hsoid⟩ := hsid
          exact ⟨n, hn, so, hso, hsoid⟩
    obtain ⟨ss, hss, hgs⟩ := hlookup e.start_socket hedge.1
    obtain ⟨se, hse, hge⟩ := hlookup e.end_socket hedge.2
    exact ⟨ss, se, hss, hse, hgs, hge⟩
  -- the edge phase, on the scene produced by the node phase
  obtain ⟨s2, hel, hnodes2, hedges2, hid2, hw2, hh2⟩ :=
    edgesLoop_roundtrip (s.edges.filter (fun e => e.end_socket.isSome))
      (Scene.mk s.id 64000 64000 ns2 [])
      (sceneEntries s.nodes ++ []) fresh2 hresolve
  -- restate the pieces up to definitional unfolding
  have hnl2 : nodesLoop true s.serialize.nodes
      { Scene.new fresh with id := s.serialize.id } [] (fresh + 1)
      = (Scene.mk s.id 64000 64000 ns2 [],
         sceneEntries s.nodes ++ [], fresh2) := hnl
  have hel2 : edgesLoop true s.serialize.edges
      (Scene.mk s.id 64000 64000 ns2 [])
      (sceneEntries s.nodes ++ []) fresh2 = some s2 := hel
  have hedges2b : s2.edges = (s.edges.filter
      (fun e => e.end_socket.isSome)).map (fun e =>
        ({ id := e.id, edge_type := e.edge_type,
           start_socket := e.start_socket,
           end_socket := e.end_socket } : Edge)) := hedges2
  have hnodes2b : s2.nodes.map Node.serialize = ns2.map Node.serialize :=
    hnodes2
  have hid2b : s2.id = s.id := hid2
  have hw2b : s2.scene_width = 64000 := hw2
  have hh2b : s2.scene_height = 64000 := hh2
  refine ⟨s2, ?_, ?_⟩
  · show Scene.deserializeFixed fresh s.serialize true = some s2
    unfold Scene.deserializeFixed
    simp only [if_true, hnl2]
    exact hel2
  · -- the fresh scene serializes back to the original record
    have hfilterall : s2.edges.filter (fun e => e.end_socket.isSome)
        = s2.edges := by
      apply List.filter_eq_self.mpr
      intro e he
      rw [hedges2b] at he
      simp only [List.mem_map] at he
      obtain ⟨e0, he0, rfl⟩ := he
      rw [List.mem_filter] at he0
      simpa using he0.2
    have hmapedges : s2.edges.map Edge.serialize
        = (s.edges.filter (fun e => e.end_socket.isSome)).map
            Edge.serialize := by
      rw [hedges2b]
      simp only [List.map_map]
      apply List.map_congr_left
      intro e _
      rfl
    show ({ id := s2.id, width := s2.scene_width,
            height := s2.scene_height,
            nodes := s2.nodes.map Node.serialize,
            edges := (s2.edges.filter
              (fun e => e.end_socket.isSome)).map Edge.serialize } : SceneSer)
      = { id := s.id, width := s.scene_width, height := s.scene_height,
          nodes := s.nodes.map Node.serialize,
          edges := (s.edges.filter
            (fun e => e.end_socket.isSome)).map Edge.serialize }
    rw [hid2b, hw2b, hh2b, hwidth, hheight, hfilterall, hmapedges,
      hnodes2b, hns]

/-- The keyword-fixed round trip instantiated at the concrete two-node,
one-edge scene: the very input on which the shipped code crashes would
round-trip perfectly once restore_id is passed by keyword. -/
theorem roundtrip_keyword_fix_at_failing_input :
    ∃ s2, Scene.deserializeFixed 500 exScene.serialize true = some s2
      ∧ s2.serialize = exScene.serialize :=
  serialize_roundtrip_with_keyword_fix exScene 500 (by decide)

/-- Claim C1 (refuted by a crash in the code, not by the spec being
wrong about the intent): the claim states that for any scene,
deserialize(serialize(scene)) with restore_id = True succeeds and
re-serializes structurally equal.  In the source, Scene.deserialize
passes restore_id positionally (node_scene.py:308) to Node.deserialize,
whose restore_id parameter is keyword-only (node_node.py:346), so Python
raises TypeError on the first node record: the round trip crashes for
every scene containing at least one node, instead of reproducing the
record. -/
theorem claim_C1_deserialize_raises_typeerror (s : Scene) (fresh : Nat)
    (h : s.nodes ≠ []) :
    Scene.deserialize fresh s.serialize true = none := by
  obtain ⟨a, l, hn⟩ : ∃ a l, s.nodes = a :: l := by
    cases hcase : s.nodes with
    | nil => exact absurd hcase h
    | cons a l => exact ⟨a, l, rfl⟩
  have hd : s.serialize.nodes = Node.serialize a :: l.map Node.serialize := by
    show s.nodes.map Node.serialize = _
    rw [hn]
    rfl
  unfold Scene.deserialize
  rw [hd]

/-- Claim C1 witness: the TypeError crash at the concrete two-node,
one-edge scene, whose node list is nonempty. -/
theorem claim_C1_witness :
    exScene.nodes ≠ [] ∧
      Scene.deserialize 500 exScene.serialize true = none :=
  ⟨by decide, claim_C1_deserialize_raises_typeerror exScene 500 (by decide)⟩

/-- Claim C2 witness: the memoization clause applied to the clean cached
node 1 of the Divide scenario. -/
theorem claim_C2_witness :
    (calcScene.find 1 = some calcA ∧ calcA.is_dirty = false
      ∧ calcA.is_invalid = false)
    ∧ CalcNode.eval (8 + 1) calcScene 1 = some (calcScene, calcA.value) :=
  ⟨⟨by decide, by decide, by decide⟩,
    claim_C2_eval_memoization.1 8 calcScene 1 calcA (by decide) (by decide)
      (by decide)⟩

end NodeEditor
